import Mathlib

/-!
Verification development for the OpenModelica per-step equation-solving layer:
the nonlinear hybrd solve controller (`solveHybrd` in
`SimulationRuntime/c/simulation/solver/nonlinearSolverHybrd.c`) and the dense
linear solver wrapper (`solveLapack` in
`SimulationRuntime/c/simulation/solver/linearSolverLapack.c`).

The C code is shallowly embedded: machine doubles become real numbers, vectors
of length `n` become functions `Fin n → ℝ`, the external MINPACK root-finder
`_omc_hybrd_` and the external LAPACK routine `dgesv_` become opaque oracle
parameters, and the mutable state of one `solveHybrd` invocation becomes an
explicit record threaded through pure transition functions.  The outer
`while (!giveUp && !success)` loop is embedded with explicit fuel; a proved
measure argument shows that fuel 192 is always sufficient, so the fuel-based
loop agrees with the unbounded C loop.
-/

noncomputable section

open Classical

/-- Per-system read-only data supplied by the surrounding simulation:
the canonical solution slot `nlsx`, the previous converged value `nlsxOld`,
the extrapolated predictor `nlsxExtrapolation`, the per-variable scale
factors `nlsxScaling`, and the residual callback `residualFunc`
(embedding of the fields of `NONLINEAR_SYSTEM_DATA` used by `solveHybrd`). -/
structure SysData (n : ℕ) where
  nlsx : Fin n → ℝ
  nlsxOld : Fin n → ℝ
  nlsxExtrapolation : Fin n → ℝ
  nlsxScaling : Fin n → ℝ
  residualFunc : (Fin n → ℝ) → Fin n → ℝ

/-- The fields of `DATA_HYBRD` that `solveHybrd` reads or writes. -/
structure SolverData (n : ℕ) where
  x : Fin n → ℝ
  fvec : Fin n → ℝ
  diag : Fin n → ℝ
  resScaling : Fin n → ℝ
  fjac : Fin n → Fin n → ℝ
  fjacobian : Fin n → Fin n → ℝ
  xtol : ℝ
  factor : ℝ
  mode : ℤ
  info : ℤ
  nfev : ℕ
  useXScaling : Bool

/-- Outputs of one invocation of the external root-finder `_omc_hybrd_`:
the overwritten iterate, residual vector, termination code `info`, the
function-evaluation count `nfev`, the two Jacobian-estimate buffers and the
diagonal (written by the finder in internal-scaling mode). -/
structure OracleOut (n : ℕ) where
  x : Fin n → ℝ
  fvec : Fin n → ℝ
  info : ℤ
  nfev : ℕ
  fjac : Fin n → Fin n → ℝ
  fjacobian : Fin n → Fin n → ℝ
  diag : Fin n → ℝ

/-- All call-context parameters of one `solveHybrd` invocation: the system
data, the external root-finder treated as an oracle from the solver state to
its outputs, and the `simulationInfo` flags read by the function. -/
structure Params (n : ℕ) where
  sys : SysData n
  hybrd : SolverData n → OracleOut n
  discreteCall : Bool
  startInitial : Bool
  foundSolutionStart : ℤ

/-- Full mutable state of one `solveHybrd` invocation: the solver data, the
canonical solution slot, the `simulationInfo` flags mutated by the call, the
local variables of the C function (`success`, `giveUp`, `local_tol`,
`retries`, `retries2`, `retries3`, `nfunc_evals`, `xerror`, `xerror_scaled`)
and a ghost counter `attempts` of recovery re-invocations (passes in which a
retry branch set `giveUp = 0`). -/
structure HState (n : ℕ) where
  solver : SolverData n
  nlsx : Fin n → ℝ
  found_solution : ℤ
  solveContinuous : Bool
  success : Bool
  giveUp : Bool
  local_tol : ℝ
  retries : ℕ
  retries2 : ℕ
  retries3 : ℕ
  nfunc_evals : ℕ
  attempts : ℕ
  xerror : ℝ
  xerror_scaled : ℝ

/-- Embedding of `wrapper_fvec_hybrd` (nonlinearSolverHybrd.c:121-181).
If `useXScaling` is set, the incoming iterate is multiplied componentwise by
`nlsxScaling`, the residual callback is invoked on the rescaled iterate, and
the iterate is multiplied back by `1/nlsxScaling`.  Returns the final iterate
buffer and the residual vector. -/
def wrapper_fvec_hybrd (nlsxScaling : Fin n → ℝ) (useXScaling : Bool)
    (residualFunc : (Fin n → ℝ) → Fin n → ℝ) (x : Fin n → ℝ) :
    (Fin n → ℝ) × (Fin n → ℝ) :=
  let x1 := if useXScaling then fun i => x i * nlsxScaling i else x
  let f := residualFunc x1
  let x2 := if useXScaling then fun i => (1 / nlsxScaling i) * x1 i else x1
  (x2, f)

/-- Modelled from the spec: the external MINPACK routine `enorm_` (not part
of src) computes the Euclidean 2-norm of a vector. -/
def enorm (v : Fin n → ℝ) : ℝ :=
  Real.sqrt (∑ i, v i ^ 2)

/-- The residual scaling divisor of nonlinearSolverHybrd.c:369-376: starting
from `1e-16`, fold the entries of row `i` of the Jacobian estimate, keeping
the entry's absolute value whenever it is strictly larger than the
accumulator. -/
def resRowMax (fjacobian : Fin n → Fin n → ℝ) (i : Fin n) : ℝ :=
  (List.finRange n).foldl
    (fun acc j => if |fjacobian i j| > acc then |fjacobian i j| else acc) 1e-16

/-- The scaled residual vector of nonlinearSolverHybrd.c:363-381:
`resScaling[i] = fvec[i] * (1 / resRowMax i)`. -/
def computeResScaling (fjacobian : Fin n → Fin n → ℝ) (fvec : Fin n → ℝ) :
    Fin n → ℝ :=
  fun i => fvec i * (1 / resRowMax fjacobian i)

/-- Iterate seeding and the single pre-loop residual evaluation of
`solveHybrd` (nonlinearSolverHybrd.c:259-274): seed from `nlsx` on a discrete
call and from `nlsxExtrapolation` otherwise, then evaluate the residual once
through `wrapper_fvec_hybrd` with x-scaling temporarily disabled. -/
def solveHybrdInit (P : Params n) (solver : SolverData n) : SolverData n :=
  let x0 := if P.discreteCall then P.sys.nlsx else P.sys.nlsxExtrapolation
  let r := wrapper_fvec_hybrd P.sys.nlsxScaling false P.sys.residualFunc x0
  { solver with x := r.1, fvec := r.2 }

/-- Loop-head work before the root-finder call
(nonlinearSolverHybrd.c:288-312): divide the iterate by the scale factors if
scaling is active, set `solveContinuous` unless the previous pass stalled
during an event, and set `giveUp = 1`. -/
def preOracle (P : Params n) (s : HState n) : HState n :=
  let x1 := if s.solver.useXScaling then
      fun i => (1 / P.sys.nlsxScaling i) * s.solver.x i
    else s.solver.x
  let sc := if ¬(s.solver.info = 4 ∧ P.discreteCall) then true
    else s.solveContinuous
  { s with solver := { s.solver with x := x1 },
           solveContinuous := sc, giveUp := true }

/-- The call to the external root-finder `_omc_hybrd_`
(nonlinearSolverHybrd.c:313-322): the oracle overwrites the iterate, the
residual vector, the termination code, the evaluation count, the Jacobian
buffers and the diagonal; afterwards `solveContinuous` is cleared. -/
def callOracle (P : Params n) (s : HState n) : HState n :=
  let o := P.hybrd s.solver
  let sol := { s.solver with
    x := o.x, fvec := o.fvec, info := o.info, nfev := o.nfev,
    fjac := o.fjac, fjacobian := o.fjacobian, diag := o.diag }
  { s with solver := sol, solveContinuous := false }

/-- Work between the root-finder call and the outcome classification
(nonlinearSolverHybrd.c:324-388): rescale the iterate, record the improper
input sentinel when `info == 0`, re-evaluate the residual unscaled on a
discrete call, recompute the residual scaling, compute both residual norms,
and reclassify a termination code of 1 as 4 when both norms exceed
`local_tol`. -/
def postOracle (P : Params n) (s : HState n) : HState n :=
  let x1 := if s.solver.useXScaling then
      fun i => s.solver.x i * P.sys.nlsxScaling i
    else s.solver.x
  let fs1 := if s.solver.info = 0 then -1 else s.found_solution
  let fvec1 := if P.discreteCall then
      (wrapper_fvec_hybrd P.sys.nlsxScaling false P.sys.residualFunc x1).2
    else s.solver.fvec
  let resSc := computeResScaling s.solver.fjacobian fvec1
  let xes := enorm resSc
  let xe := enorm fvec1
  let info1 := if s.solver.info = 1 ∧ xe > s.local_tol ∧ xes > s.local_tol
    then 4 else s.solver.info
  let sol := { s.solver with
    x := x1, fvec := fvec1, resScaling := resSc, info := info1 }
  { s with solver := sol, found_solution := fs1,
           xerror := xe, xerror_scaled := xes }

/-- The state just before the convergence test of a pass: loop-head work,
root-finder invocation and post-call classification data. -/
def hybrdMid (P : Params n) (s : HState n) : HState n :=
  postOracle P (callOracle P (preOracle P s))

/-- Whether the last root-finder invocation reported "no progress" or "too
many evaluations" — the codes every retry tier of
nonlinearSolverHybrd.c:403-581 requires. -/
def stalled (s : HState n) : Prop :=
  s.solver.info = 4 ∨ s.solver.info = 5

/-- Tier of nonlinearSolverHybrd.c:403-412 ("decrease factor"): halve the
damping factor by dividing it by 10, bump `retries`, re-arm the loop. -/
def tier1DecreaseFactor (s : HState n) : HState n :=
  let sol := { s.solver with factor := s.solver.factor / 10 }
  { s with solver := sol, retries := s.retries + 1, giveUp := false,
           nfunc_evals := s.nfunc_evals + s.solver.nfev,
           attempts := s.attempts + 1 }

/-- Tier of nonlinearSolverHybrd.c:414-425 ("vary solution point"): add
`nlsxScaling[i] * 0.1` to each iterate component, bump `retries`. -/
def tier1Perturb (P : Params n) (s : HState n) : HState n :=
  let sol := { s.solver with
    x := fun i => s.solver.x i + P.sys.nlsxScaling i * 0.1 }
  { s with solver := sol, retries := s.retries + 1, giveUp := false,
           nfunc_evals := s.nfunc_evals + s.solver.nfev,
           attempts := s.attempts + 1 }

/-- Tier of nonlinearSolverHybrd.c:427-436 ("deactivate x-Scaling"): clear
the scaling flag, bump `retries`. -/
def tier1NoScaling (s : HState n) : HState n :=
  let sol := { s.solver with useXScaling := false }
  { s with solver := sol, retries := s.retries + 1, giveUp := false,
           nfunc_evals := s.nfunc_evals + s.solver.nfev,
           attempts := s.attempts + 1 }

/-- Tier of nonlinearSolverHybrd.c:438-451 (restart from
`nlsxExtrapolation * 1.01`, re-enable scaling, reset `retries`). -/
def tier2ExtrapPlus (P : Params n) (s : HState n) : HState n :=
  let sol := { s.solver with
    x := fun i => P.sys.nlsxExtrapolation i * 1.01, useXScaling := true }
  { s with solver := sol, retries := 0, retries2 := s.retries2 + 1,
           giveUp := false,
           nfunc_evals := s.nfunc_evals + s.solver.nfev,
           attempts := s.attempts + 1 }

/-- Tier of nonlinearSolverHybrd.c:453-465 (restart from
`nlsxExtrapolation * 0.99`). -/
def tier2ExtrapMinus (P : Params n) (s : HState n) : HState n :=
  let sol := { s.solver with
    x := fun i => P.sys.nlsxExtrapolation i * 0.99, useXScaling := true }
  { s with solver := sol, retries := 0, retries2 := s.retries2 + 1,
           giveUp := false,
           nfunc_evals := s.nfunc_evals + s.solver.nfev,
           attempts := s.attempts + 1 }

/-- Tier of nonlinearSolverHybrd.c:467-480 (restart from `nlsxOld`, restore
the entry damping factor `F`). -/
def tier2OldValues (P : Params n) (F : ℝ) (s : HState n) : HState n :=
  let sol := { s.solver with
    x := fun i => P.sys.nlsxOld i, factor := F, useXScaling := true }
  { s with solver := sol, retries := 0, retries2 := s.retries2 + 1,
           giveUp := false,
           nfunc_evals := s.nfunc_evals + s.solver.nfev,
           attempts := s.attempts + 1 }

/-- Tier of nonlinearSolverHybrd.c:482-499 (switch to the residual-derived
diagonal, `mode = 2`, reset both lower retry counters). -/
def tier3OwnScaling (F : ℝ) (s : HState n) : HState n :=
  let sol := { s.solver with
    diag := fun i =>
      if |s.solver.resScaling i| ≤ 0 then 1e-16 else |s.solver.resScaling i|,
    factor := F, useXScaling := true, mode := 2 }
  { s with solver := sol, retries := 0, retries2 := 0,
           retries3 := s.retries3 + 1, giveUp := false,
           nfunc_evals := s.nfunc_evals + s.solver.nfev,
           attempts := s.attempts + 1 }

/-- Tier of nonlinearSolverHybrd.c:501-516 (seed the iterate from
`nlsxScaling`, `mode = 1`). -/
def tier3SeedScaling (P : Params n) (F : ℝ) (s : HState n) : HState n :=
  let sol := { s.solver with
    x := fun i => P.sys.nlsxScaling i, factor := F, useXScaling := true,
    mode := 1 }
  { s with solver := sol, retries := 0, retries2 := 0,
           retries3 := s.retries3 + 1, giveUp := false,
           nfunc_evals := s.nfunc_evals + s.solver.nfev,
           attempts := s.attempts + 1 }

/-- Tier of nonlinearSolverHybrd.c:518-532 (seed the iterate with all
ones). -/
def tier3SeedOne (F : ℝ) (s : HState n) : HState n :=
  let sol := { s.solver with
    x := fun _ => 1, factor := F, useXScaling := true, mode := 1 }
  { s with solver := sol, retries := 0, retries2 := 0,
           retries3 := s.retries3 + 1, giveUp := false,
           nfunc_evals := s.nfunc_evals + s.solver.nfev,
           attempts := s.attempts + 1 }

/-- Tier of nonlinearSolverHybrd.c:534-548 (seed the iterate with all
zeros). -/
def tier3SeedZero (F : ℝ) (s : HState n) : HState n :=
  let sol := { s.solver with
    x := fun _ => 0, factor := F, useXScaling := true, mode := 1 }
  { s with solver := sol, retries := 0, retries2 := 0,
           retries3 := s.retries3 + 1, giveUp := false,
           nfunc_evals := s.nfunc_evals + s.solver.nfev,
           attempts := s.attempts + 1 }

/-- Tier of nonlinearSolverHybrd.c:550-565 (seed from `nlsxExtrapolation`,
set the supplied diagonal to all ones, `mode = 2`). -/
def tier3ExtrapUnitDiag (P : Params n) (F : ℝ) (s : HState n) : HState n :=
  let sol := { s.solver with
    x := fun i => P.sys.nlsxExtrapolation i, diag := fun _ => 1,
    factor := F, useXScaling := true, mode := 2 }
  { s with solver := sol, retries := 0, retries2 := 0,
           retries3 := s.retries3 + 1, giveUp := false,
           nfunc_evals := s.nfunc_evals + s.solver.nfev,
           attempts := s.attempts + 1 }

/-- Tier of nonlinearSolverHybrd.c:568-581 (relax the tolerance floor by a
factor 10, `mode = 2`). -/
def tier3RelaxTol (F : ℝ) (s : HState n) : HState n :=
  let sol := { s.solver with factor := F, useXScaling := true, mode := 2 }
  { s with solver := sol, local_tol := s.local_tol * 10,
           retries := 0, retries2 := 0,
           retries3 := s.retries3 + 1, giveUp := false,
           nfunc_evals := s.nfunc_evals + s.solver.nfev,
           attempts := s.attempts + 1 }

/-- The retry automaton of nonlinearSolverHybrd.c:402-595: the else-if chain
entered when the convergence test fails, in the source's branch order.  `F`
is the damping factor saved at entry (`initial_factor`).  Every branch that
re-arms the loop (`giveUp = 0`) also increments the ghost `attempts`
counter. -/
def hybrdRetry (P : Params n) (F : ℝ) (s : HState n) : HState n :=
  if stalled s ∧ s.retries < 3 then tier1DecreaseFactor s
  else if stalled s ∧ s.retries < 5 then tier1Perturb P s
  else if stalled s ∧ s.retries < 4 then tier1NoScaling s
  else if stalled s ∧ s.retries2 < 1 then tier2ExtrapPlus P s
  else if stalled s ∧ s.retries2 < 2 then tier2ExtrapMinus P s
  else if stalled s ∧ s.retries2 < 3 then tier2OldValues P F s
  else if stalled s ∧ s.retries3 < 1 then tier3OwnScaling F s
  else if stalled s ∧ s.retries3 < 2 then tier3SeedScaling P F s
  else if stalled s ∧ s.retries3 < 3 then tier3SeedOne F s
  else if stalled s ∧ s.retries3 < 4 then tier3SeedZero F s
  else if stalled s ∧ s.retries3 < 5 then tier3ExtrapUnitDiag P F s
  else if stalled s ∧ s.retries3 < 7 then tier3RelaxTol F s
  else if 2 ≤ s.solver.info ∧ s.solver.info ≤ 5 then
    { s with found_solution := -1 }
  else s

/-- The convergence test and outcome dispatch of
nonlinearSolverHybrd.c:391-595: success iff the (reclassified) termination
code is 1 or either residual norm is within `local_tol`; otherwise run the
retry automaton. -/
def hybrdClassify (P : Params n) (F : ℝ) (s : HState n) : HState n :=
  if s.solver.info = 1 ∨ s.xerror ≤ s.local_tol ∨ s.xerror_scaled ≤ s.local_tol
  then
    { s with success := true,
             nfunc_evals := s.nfunc_evals + s.solver.nfev }
  else hybrdRetry P F s

/-- One pass of the outer `while (!giveUp && !success)` loop of
`solveHybrd`. -/
def hybrdPass (P : Params n) (F : ℝ) (s : HState n) : HState n :=
  hybrdClassify P F (hybrdMid P s)

/-- The outer loop of `solveHybrd` with explicit fuel: repeat `hybrdPass`
while `giveUp` and `success` are both false. -/
def hybrdLoop (P : Params n) (F : ℝ) : ℕ → HState n → HState n
  | 0, s => s
  | f + 1, s =>
    if s.giveUp = false ∧ s.success = false then
      hybrdLoop P F f (hybrdPass P F s)
    else s

/-- Initial `solveHybrd` state (nonlinearSolverHybrd.c:225-274): local
variables initialised, iterate seeded and the pre-loop residual evaluation
performed. -/
def initHState (P : Params n) (solver : SolverData n) : HState n :=
  { solver := solveHybrdInit P solver,
    nlsx := P.sys.nlsx,
    found_solution := P.foundSolutionStart,
    solveContinuous := false,
    success := false, giveUp := false,
    local_tol := 1e-12,
    retries := 0, retries2 := 0, retries3 := 0,
    nfunc_evals := 0, attempts := 0,
    xerror := 0, xerror_scaled := 0 }

/-- Embedding of `solveHybrd` (nonlinearSolverHybrd.c:219-607): seed, run the
outer loop (fuel 192 is proved sufficient below), then copy the final iterate
into the canonical solution slot `nlsx` and restore the entry damping factor.
Returns the `success` flag together with the final state. -/
def solveHybrd (P : Params n) (solver : SolverData n) : Bool × HState n :=
  let F := solver.factor
  let sf := hybrdLoop P F 192 (initHState P solver)
  let sf2 := { sf with nlsx := sf.solver.x,
                       solver := { sf.solver with factor := F } }
  (sf2.success, sf2)

/-- Termination measure for the retry automaton: each recovery attempt
strictly decreases it, and it is `191` at the initial state. -/
def hMeasure (s : HState n) : ℕ :=
  (7 - s.retries3) * 24 + (3 - s.retries2) * 6 + (5 - s.retries)

/-- Counter bounds maintained by the retry automaton. -/
def hInv (s : HState n) : Prop :=
  s.retries ≤ 5 ∧ s.retries2 ≤ 3 ∧ s.retries3 ≤ 7

/-- A loop state in which the outer loop stops. -/
def halted (s : HState n) : Prop :=
  s.giveUp = true ∨ s.success = true

end

section LapackDefs

/-- The per-system data of the linear wrapper (`LINEAR_SYSTEM_DATA`): the
matrix assembly callback applied to the zero-filled matrix, the right-hand
side assembly callback, and the canonical solution slot `x`. -/
structure LinSys (n : ℕ) where
  setA : (Fin n → Fin n → ℝ) → Fin n → Fin n → ℝ
  setb : Fin n → ℝ
  x : Fin n → ℝ

/-- The failure category reported by `solveLapack` via `warningStreamPrint`,
with the integer actually printed. -/
inductive LapackReport where
  | noReport : LapackReport
  | illegalArg : ℤ → LapackReport
  | singular : ℤ → LapackReport
deriving DecidableEq

/-- Result of one `solveLapack` call: the success flag, the factorized
matrix buffer, the rhs buffer (overwritten by the external routine), the
canonical solution slot and the raw status code with its report. -/
structure LapackResult (n : ℕ) where
  success : Bool
  A : Fin n → Fin n → ℝ
  b : Fin n → ℝ
  x : Fin n → ℝ
  info : ℤ
  report : LapackReport

/-- Embedding of `solveLapack` (linearSolverLapack.c:93-194): zero-fill and
assemble the matrix and rhs, invoke the external `dgesv_` oracle once,
classify its status code (`info < 0` illegal argument printing `info`,
`info > 0` singular printing `info + 1`, `info = 0` success), and copy the
rhs buffer into the canonical solution slot regardless of outcome. -/
noncomputable def solveLapack
    (dgesv : (Fin n → Fin n → ℝ) → (Fin n → ℝ) →
      ℤ × (Fin n → Fin n → ℝ) × (Fin n → ℝ))
    (sys : LinSys n) : LapackResult n :=
  let A := sys.setA (fun _ _ => 0)
  let r := dgesv A sys.setb
  if r.1 < 0 then
    { success := false, A := r.2.1, b := r.2.2, x := r.2.2, info := r.1,
      report := .illegalArg r.1 }
  else if r.1 > 0 then
    { success := false, A := r.2.1, b := r.2.2, x := r.2.2, info := r.1,
      report := .singular (r.1 + 1) }
  else
    { success := true, A := r.2.1, b := r.2.2, x := r.2.2, info := r.1,
      report := .noReport }

end LapackDefs

noncomputable section Fixtures

/-- Test fixture: a one-dimensional system with unit scale factors, zero
seeds and a residual callback that is constantly `1` (no root exists —
spec Scenario C). -/
def stallSys : SysData 1 where
  nlsx := ![0]
  nlsxOld := ![0]
  nlsxExtrapolation := ![0]
  nlsxScaling := ![1]
  residualFunc := fun _ => ![1]

/-- Test fixture: root-finder output reporting "no progress" (`info = 4`)
with residual `1` and Jacobian estimate `1`. -/
def stallOut : OracleOut 1 where
  x := ![0]
  fvec := ![1]
  info := 4
  nfev := 0
  fjac := ![![1]]
  fjacobian := ![![1]]
  diag := ![1]

/-- Test fixture: a call context whose root-finder always stalls. -/
def stallP : Params 1 where
  sys := stallSys
  hybrd := fun _ => stallOut
  discreteCall := false
  startInitial := false
  foundSolutionStart := 0

/-- Test fixture: freshly allocated solver data
(`allocateHybrdData` defaults, nonlinearSolverHybrd.c:50-89). -/
def stallSolver : SolverData 1 where
  x := ![0]
  fvec := ![0]
  diag := ![1]
  resScaling := ![0]
  fjac := ![![0]]
  fjacobian := ![![0]]
  xtol := 1e-12
  factor := 100
  mode := 1
  info := 0
  nfev := 0
  useXScaling := true

/-- Test fixture: root-finder output reporting success (`info = 1`) with a
zero residual. -/
def okOut : OracleOut 1 where
  x := ![0]
  fvec := ![0]
  info := 1
  nfev := 0
  fjac := ![![1]]
  fjacobian := ![![1]]
  diag := ![1]

/-- Test fixture: a call context whose root-finder converges immediately. -/
def okP : Params 1 where
  sys := stallSys
  hybrd := fun _ => okOut
  discreteCall := false
  startInitial := false
  foundSolutionStart := 0

/-- Test fixture: root-finder output reporting improper input (`info = 0`)
with a nonzero residual. -/
def improperOut : OracleOut 1 where
  x := ![0]
  fvec := ![1]
  info := 0
  nfev := 0
  fjac := ![![1]]
  fjacobian := ![![1]]
  diag := ![1]

/-- Test fixture: a call context whose root-finder always reports improper
input. -/
def improperP : Params 1 where
  sys := stallSys
  hybrd := fun _ => improperOut
  discreteCall := false
  startInitial := false
  foundSolutionStart := 0

/-- Test fixture: a system whose canonical slot, previous value and
extrapolation are pairwise distinct, to observe the seeding choice. -/
def seedSys : SysData 1 where
  nlsx := ![1]
  nlsxOld := ![2]
  nlsxExtrapolation := ![3]
  nlsxScaling := ![1]
  residualFunc := fun v => v

/-- Test fixture: a discrete-event call context on `seedSys`. -/
def seedP : Params 1 where
  sys := seedSys
  hybrd := fun _ => okOut
  discreteCall := true
  startInitial := false
  foundSolutionStart := 0

/-- Test fixture: a retry-automaton state as reached after three damping
halvings (`retries = 3`) with the root-finder still reporting no progress. -/
def c1State : HState 1 where
  solver := { stallSolver with info := 4 }
  nlsx := ![0]
  found_solution := 0
  solveContinuous := false
  success := false
  giveUp := true
  local_tol := 1e-12
  retries := 3
  retries2 := 0
  retries3 := 0
  nfunc_evals := 0
  attempts := 0
  xerror := 1
  xerror_scaled := 1

/-- Test fixture: the 2×2 linear system `[[1,0],[0,0]]·x = [1,0]` of spec
Scenario B (a zero row, hence singular with zero pivot at position 2). -/
def lsysB : LinSys 2 where
  setA := fun _ => ![![1, 0], ![0, 0]]
  setb := ![1, 0]
  x := ![0, 0]

/-- Modelled from the spec: the external LAPACK routine `dgesv_` (not part
of src) on the matrix `[[1,0],[0,0]]`.  Per its documented contract, LU
factorization with partial pivoting leaves this matrix unchanged and finds
the exact zero pivot `U(2,2)`, so it returns status `info = 2` (the 1-based
index of the zero pivot) and does not complete the solve, leaving the rhs
buffer in place. -/
def dgesvSingular :
    (Fin 2 → Fin 2 → ℝ) → (Fin 2 → ℝ) → ℤ × (Fin 2 → Fin 2 → ℝ) × (Fin 2 → ℝ) :=
  fun A b => (2, A, b)

end Fixtures

section Theorems

/-- Claim C9: for every scale vector with strictly positive entries and
every iterate, the scaling round-trip of `wrapper_fvec_hybrd` — multiply
each component by its scale factor before the residual callback, multiply by
the reciprocal afterwards — returns the original iterate exactly (real
arithmetic). -/
theorem wrapper_scaling_roundtrip {n : ℕ} (nlsxScaling : Fin n → ℝ)
    (residualFunc : (Fin n → ℝ) → Fin n → ℝ) (x : Fin n → ℝ)
    (hpos : ∀ i, 0 < nlsxScaling i) :
    (wrapper_fvec_hybrd nlsxScaling true residualFunc x).1 = x := by
  funext i
  have h : nlsxScaling i ≠ 0 := ne_of_gt (hpos i)
  simp only [wrapper_fvec_hybrd, if_true]
  field_simp

/-- Witness for the scaling round-trip at scale `![2]`, iterate `![3]`. -/
theorem wrapper_scaling_roundtrip_witness :
    (∀ i : Fin 1, 0 < (![2] : Fin 1 → ℝ) i) ∧
      (wrapper_fvec_hybrd ![2] true (fun v => v) ![3]).1 = ![3] := by
  have h : ∀ i : Fin 1, 0 < (![2] : Fin 1 → ℝ) i := by
    intro i
    fin_cases i
    norm_num
  exact ⟨h, wrapper_scaling_roundtrip ![2] (fun v => v) ![3] h⟩

/-- Claim C3: both solvers overwrite the canonical solution slot on return
regardless of the success flag — `solveHybrd` copies its final iterate into
`nlsx` and restores the entry damping factor, `solveLapack` copies the
post-solve rhs buffer into `x`. -/
theorem solvers_always_write_back :
    ∀ {n : ℕ} (P : Params n) (solver : SolverData n) {m : ℕ}
      (dgesv : (Fin m → Fin m → ℝ) → (Fin m → ℝ) →
        ℤ × (Fin m → Fin m → ℝ) × (Fin m → ℝ))
      (lsys : LinSys m),
      ((solveHybrd P solver).2.nlsx = (solveHybrd P solver).2.solver.x ∧
        (solveHybrd P solver).2.solver.factor = solver.factor) ∧
      (solveLapack dgesv lsys).x = (solveLapack dgesv lsys).b := by
  intro n P solver m dgesv lsys
  refine ⟨⟨rfl, rfl⟩, ?_⟩
  simp only [solveLapack]
  split
  · rfl
  · split
    · rfl
    · rfl

/-- Claim C4 (amended): `solveLapack` classifies the external status code in
exactly three ways — negative status yields `success = false` with an
illegal-argument report carrying the raw status value, positive status `k`
yields `success = false` with a singular report carrying `k + 1` (not `k`:
the code prints `info + 1`), and zero status yields `success = true`. -/
theorem solveLapack_status_classification :
    ∀ {m : ℕ}
      (dgesv : (Fin m → Fin m → ℝ) → (Fin m → ℝ) →
        ℤ × (Fin m → Fin m → ℝ) × (Fin m → ℝ))
      (lsys : LinSys m),
      ((dgesv (lsys.setA fun _ _ => 0) lsys.setb).1 < 0 →
        (solveLapack dgesv lsys).success = false ∧
        (solveLapack dgesv lsys).report =
          .illegalArg (dgesv (lsys.setA fun _ _ => 0) lsys.setb).1) ∧
      (0 < (dgesv (lsys.setA fun _ _ => 0) lsys.setb).1 →
        (solveLapack dgesv lsys).success = false ∧
        (solveLapack dgesv lsys).report =
          .singular ((dgesv (lsys.setA fun _ _ => 0) lsys.setb).1 + 1)) ∧
      ((dgesv (lsys.setA fun _ _ => 0) lsys.setb).1 = 0 →
        (solveLapack dgesv lsys).success = true) := by
  intro m dgesv lsys
  refine ⟨fun h => ?_, fun h => ?_, fun h => ?_⟩
  · simp only [solveLapack]
    rw [if_pos h]
    exact ⟨rfl, rfl⟩
  · simp only [solveLapack]
    rw [if_neg (by omega), if_pos h]
    exact ⟨rfl, rfl⟩
  · simp only [solveLapack]
    rw [if_neg (by omega), if_neg (by omega)]

/-- Witness for the status classification: on Scenario B the spec-modelled
`dgesv_` returns status 2, and the wrapper reports singular pivot 3. -/
theorem solveLapack_status_classification_witness :
    (0 : ℤ) < (dgesvSingular (lsysB.setA fun _ _ => 0) lsysB.setb).1 ∧
    ((solveLapack dgesvSingular lsysB).success = false ∧
      (solveLapack dgesvSingular lsysB).report =
        .singular ((dgesvSingular (lsysB.setA fun _ _ => 0) lsysB.setb).1 + 1)) := by
  have h : (0 : ℤ) < (dgesvSingular (lsysB.setA fun _ _ => 0) lsysB.setb).1 := by
    norm_num [dgesvSingular]
  exact ⟨h, (solveLapack_status_classification dgesvSingular lsysB).2.1 h⟩

/-- Counterexample to claim C4 as stated: on the 2×2 system
`[[1,0],[0,0]]·x=[1,0]` with status code 2 from the external routine,
`solveLapack` returns `false` but reports singular pivot 3, not 2. -/
theorem solveLapack_singular_pivot_cex :
    (solveLapack dgesvSingular lsysB).success = false ∧
    (solveLapack dgesvSingular lsysB).info = 2 ∧
    (solveLapack dgesvSingular lsysB).report = .singular 3 ∧
    (solveLapack dgesvSingular lsysB).report ≠ .singular 2 := by
  have h : solveLapack dgesvSingular lsysB =
      { success := false, A := lsysB.setA fun _ _ => 0, b := lsysB.setb,
        x := lsysB.setb, info := 2, report := .singular 3 } := by
    simp only [solveLapack, dgesvSingular]
    norm_num
  rw [h]
  refine ⟨rfl, rfl, rfl, ?_⟩
  simp

/-- Claim C5 (amended): at the start of every `solveHybrd` call the iterate
is seeded from the canonical solution slot `nlsx` (not from `nlsxOld`) when
the step is a discrete-event evaluation and from `nlsxExtrapolation`
otherwise, and exactly one residual evaluation with scaling disabled is
performed before the iterative loop, leaving the seeded iterate unchanged. -/
theorem solveHybrd_seeding :
    ∀ {n : ℕ} (P : Params n) (solver : SolverData n),
      (solveHybrdInit P solver).x =
        (if P.discreteCall then P.sys.nlsx else P.sys.nlsxExtrapolation) ∧
      (solveHybrdInit P solver).fvec =
        (wrapper_fvec_hybrd P.sys.nlsxScaling false P.sys.residualFunc
          (if P.discreteCall then P.sys.nlsx else P.sys.nlsxExtrapolation)).2 ∧
      (solveHybrdInit P solver).fvec =
        P.sys.residualFunc
          (if P.discreteCall then P.sys.nlsx else P.sys.nlsxExtrapolation) ∧
      (solveHybrdInit P solver).useXScaling = solver.useXScaling ∧
      (initHState P solver).solver = solveHybrdInit P solver := by
  intro n P solver
  exact ⟨rfl, rfl, rfl, rfl, rfl⟩

/-- Counterexample to claim C5 as stated: on a discrete-event call with
`nlsx = ![1]` and `nlsxOld = ![2]`, the seeded iterate is `1` (the canonical
slot), not the prior converged value `2`. -/
theorem solveHybrd_seeding_cex :
    (solveHybrdInit seedP stallSolver).x 0 = 1 ∧
    seedSys.nlsxOld 0 = 2 ∧ (1 : ℝ) ≠ 2 := by
  refine ⟨?_, ?_, by norm_num⟩
  · simp [solveHybrdInit, seedP, seedSys, wrapper_fvec_hybrd]
  · simp [seedSys]

end Theorems

section LoopLemmas

variable {n : ℕ}

/-- The stages before the convergence test do not touch the retry counters,
the ghost attempt counter, the tolerance floor, the success flag or the
function-evaluation accumulator; they set `giveUp` and preserve the scaling
flag. -/
lemma hybrdMid_fields (P : Params n) (s : HState n) :
    (hybrdMid P s).retries = s.retries ∧
    (hybrdMid P s).retries2 = s.retries2 ∧
    (hybrdMid P s).retries3 = s.retries3 ∧
    (hybrdMid P s).attempts = s.attempts ∧
    (hybrdMid P s).local_tol = s.local_tol ∧
    (hybrdMid P s).success = s.success ∧
    (hybrdMid P s).giveUp = true ∧
    (hybrdMid P s).nfunc_evals = s.nfunc_evals ∧
    (hybrdMid P s).solver.useXScaling = s.solver.useXScaling := by
  exact ⟨rfl, rfl, rfl, rfl, rfl, rfl, rfl, rfl, rfl⟩

/-- The termination code stored by `postOracle` is the incoming one,
reclassified to 4 exactly under the double-norm-excess condition. -/
lemma postOracle_info_cases (P : Params n) (u : HState n) :
    (postOracle P u).solver.info =
      (if u.solver.info = 1 ∧ (postOracle P u).xerror > u.local_tol ∧
          (postOracle P u).xerror_scaled > u.local_tol
        then 4 else u.solver.info) := rfl

/-- `postOracle` sets the improper-input sentinel exactly when the incoming
termination code is 0. -/
lemma postOracle_found (P : Params n) (u : HState n) :
    (postOracle P u).found_solution =
      (if u.solver.info = 0 then -1 else u.found_solution) := rfl

/-- `postOracle` leaves the tolerance floor unchanged. -/
lemma postOracle_tol (P : Params n) (u : HState n) :
    (postOracle P u).local_tol = u.local_tol := rfl

/-- Complete case analysis of the retry automaton: exactly one of thirteen
outcomes occurs, each with the counter ranges that select it.  The
disable-scaling branch of nonlinearSolverHybrd.c:427 (guard `retries < 4`)
appears in no outcome: it is checked after the `retries < 5` branch, whose
guard subsumes it, so it can never fire. -/
lemma hybrdRetry_cases (P : Params n) (F : ℝ) (s : HState n) :
    (hybrdRetry P F s = tier1DecreaseFactor s ∧ stalled s ∧ s.retries < 3) ∨
    (hybrdRetry P F s = tier1Perturb P s ∧ stalled s ∧
      3 ≤ s.retries ∧ s.retries < 5) ∨
    (hybrdRetry P F s = tier2ExtrapPlus P s ∧ stalled s ∧
      5 ≤ s.retries ∧ s.retries2 < 1) ∨
    (hybrdRetry P F s = tier2ExtrapMinus P s ∧ stalled s ∧
      5 ≤ s.retries ∧ 1 ≤ s.retries2 ∧ s.retries2 < 2) ∨
    (hybrdRetry P F s = tier2OldValues P F s ∧ stalled s ∧
      5 ≤ s.retries ∧ 2 ≤ s.retries2 ∧ s.retries2 < 3) ∨
    (hybrdRetry P F s = tier3OwnScaling F s ∧ stalled s ∧
      5 ≤ s.retries ∧ 3 ≤ s.retries2 ∧ s.retries3 < 1) ∨
    (hybrdRetry P F s = tier3SeedScaling P F s ∧ stalled s ∧
      5 ≤ s.retries ∧ 3 ≤ s.retries2 ∧ 1 ≤ s.retries3 ∧ s.retries3 < 2) ∨
    (hybrdRetry P F s = tier3SeedOne F s ∧ stalled s ∧
      5 ≤ s.retries ∧ 3 ≤ s.retries2 ∧ 2 ≤ s.retries3 ∧ s.retries3 < 3) ∨
    (hybrdRetry P F s = tier3SeedZero F s ∧ stalled s ∧
      5 ≤ s.retries ∧ 3 ≤ s.retries2 ∧ 3 ≤ s.retries3 ∧ s.retries3 < 4) ∨
    (hybrdRetry P F s = tier3ExtrapUnitDiag P F s ∧ stalled s ∧
      5 ≤ s.retries ∧ 3 ≤ s.retries2 ∧ 4 ≤ s.retries3 ∧ s.retries3 < 5) ∨
    (hybrdRetry P F s = tier3RelaxTol F s ∧ stalled s ∧
      5 ≤ s.retries ∧ 3 ≤ s.retries2 ∧ 5 ≤ s.retries3 ∧ s.retries3 < 7) ∨
    (hybrdRetry P F s = { s with found_solution := -1 } ∧
      2 ≤ s.solver.info ∧ s.solver.info ≤ 5 ∧
      (¬ stalled s ∨ (5 ≤ s.retries ∧ 3 ≤ s.retries2 ∧ 7 ≤ s.retries3))) ∨
    (hybrdRetry P F s = s ∧ ¬ stalled s ∧
      ¬(2 ≤ s.solver.info ∧ s.solver.info ≤ 5)) := by
  by_cases hst : stalled s
  · by_cases c1 : s.retries < 3
    · refine Or.inl ⟨?_, hst, c1⟩
      unfold hybrdRetry
      rw [if_pos ⟨hst, c1⟩]
    · by_cases c2 : s.retries < 5
      · refine Or.inr (Or.inl ⟨?_, hst, by omega, c2⟩)
        unfold hybrdRetry
        rw [if_neg (fun c => c1 c.2), if_pos ⟨hst, c2⟩]
      · by_cases c4 : s.retries2 < 1
        · refine Or.inr (Or.inr (Or.inl ⟨?_, hst, by omega, c4⟩))
          unfold hybrdRetry
          rw [if_neg (fun c => c1 c.2), if_neg (fun c => c2 c.2),
            if_neg (fun c => c2 (by omega)), if_pos ⟨hst, c4⟩]
        · by_cases c5 : s.retries2 < 2
          · refine Or.inr (Or.inr (Or.inr (Or.inl
              ⟨?_, hst, by omega, by omega, c5⟩)))
            unfold hybrdRetry
            rw [if_neg (fun c => c1 c.2), if_neg (fun c => c2 c.2),
              if_neg (fun c => c2 (by omega)), if_neg (fun c => c4 c.2),
              if_pos ⟨hst, c5⟩]
          · by_cases c6 : s.retries2 < 3
            · refine Or.inr (Or.inr (Or.inr (Or.inr (Or.inl
                ⟨?_, hst, by omega, by omega, c6⟩))))
              unfold hybrdRetry
              rw [if_neg (fun c => c1 c.2), if_neg (fun c => c2 c.2),
                if_neg (fun c => c2 (by omega)), if_neg (fun c => c4 c.2),
                if_neg (fun c => c5 c.2), if_pos ⟨hst, c6⟩]
            · by_cases c7 : s.retries3 < 1
              · refine Or.inr (Or.inr (Or.inr (Or.inr (Or.inr (Or.inl
                  ⟨?_, hst, by omega, by omega, c7⟩)))))
                unfold hybrdRetry
                rw [if_neg (fun c => c1 c.2), if_neg (fun c => c2 c.2),
                  if_neg (fun c => c2 (by omega)), if_neg (fun c => c4 c.2),
                  if_neg (fun c => c5 c.2), if_neg (fun c => c6 c.2),
                  if_pos ⟨hst, c7⟩]
              · by_cases c8 : s.retries3 < 2
                · refine Or.inr (Or.inr (Or.inr (Or.inr (Or.inr (Or.inr
                    (Or.inl ⟨?_, hst, by omega, by omega, by omega, c8⟩))))))
                  unfold hybrdRetry
                  rw [if_neg (fun c => c1 c.2), if_neg (fun c => c2 c.2),
                    if_neg (fun c => c2 (by omega)), if_neg (fun c => c4 c.2),
                    if_neg (fun c => c5 c.2), if_neg (fun c => c6 c.2),
                    if_neg (fun c => c7 c.2), if_pos ⟨hst, c8⟩]
                · by_cases c9 : s.retries3 < 3
                  · refine Or.inr (Or.inr (Or.inr (Or.inr (Or.inr (Or.inr
                      (Or.inr (Or.inl
                        ⟨?_, hst, by omega, by omega, by omega, c9⟩)))))))
                    unfold hybrdRetry
                    rw [if_neg (fun c => c1 c.2), if_neg (fun c => c2 c.2),
                      if_neg (fun c => c2 (by omega)), if_neg (fun c => c4 c.2),
                      if_neg (fun c => c5 c.2), if_neg (fun c => c6 c.2),
                      if_neg (fun c => c7 c.2), if_neg (fun c => c8 c.2),
                      if_pos ⟨hst, c9⟩]
                  · by_cases c10 : s.retries3 < 4
                    · refine Or.inr (Or.inr (Or.inr (Or.inr (Or.inr (Or.inr
                        (Or.inr (Or.inr (Or.inl
                          ⟨?_, hst, by omega, by omega, by omega, c10⟩))))))))
                      unfold hybrdRetry
                      rw [if_neg (fun c => c1 c.2), if_neg (fun c => c2 c.2),
                        if_neg (fun c => c2 (by omega)),
                        if_neg (fun c => c4 c.2), if_neg (fun c => c5 c.2),
                        if_neg (fun c => c6 c.2), if_neg (fun c => c7 c.2),
                        if_neg (fun c => c8 c.2), if_neg (fun c => c9 c.2),
                        if_pos ⟨hst, c10⟩]
                    · by_cases c11 : s.retries3 < 5
                      · refine Or.inr (Or.inr (Or.inr (Or.inr (Or.inr (Or.inr
                          (Or.inr (Or.inr (Or.inr (Or.inl
                            ⟨?_, hst, by omega, by omega, by omega,
                              c11⟩)))))))))
                        unfold hybrdRetry
                        rw [if_neg (fun c => c1 c.2), if_neg (fun c => c2 c.2),
                          if_neg (fun c => c2 (by omega)),
                          if_neg (fun c => c4 c.2), if_neg (fun c => c5 c.2),
                          if_neg (fun c => c6 c.2), if_neg (fun c => c7 c.2),
                          if_neg (fun c => c8 c.2), if_neg (fun c => c9 c.2),
                          if_neg (fun c => c10 c.2), if_pos ⟨hst, c11⟩]
                      · by_cases c12 : s.retries3 < 7
                        · refine Or.inr (Or.inr (Or.inr (Or.inr (Or.inr
                            (Or.inr (Or.inr (Or.inr (Or.inr (Or.inr (Or.inl
                              ⟨?_, hst, by omega, by omega, by omega,
                                c12⟩))))))))))
                          unfold hybrdRetry
                          rw [if_neg (fun c => c1 c.2),
                            if_neg (fun c => c2 c.2),
                            if_neg (fun c => c2 (by omega)),
                            if_neg (fun c => c4 c.2), if_neg (fun c => c5 c.2),
                            if_neg (fun c => c6 c.2), if_neg (fun c => c7 c.2),
                            if_neg (fun c => c8 c.2), if_neg (fun c => c9 c.2),
                            if_neg (fun c => c10 c.2),
                            if_neg (fun c => c11 c.2), if_pos ⟨hst, c12⟩]
                        · refine Or.inr (Or.inr (Or.inr (Or.inr (Or.inr
                            (Or.inr (Or.inr (Or.inr (Or.inr (Or.inr (Or.inr
                              (Or.inl ⟨?_, ?_, ?_,
                                Or.inr ⟨by omega, by omega, by omega⟩⟩)))))))))))
                          · unfold hybrdRetry
                            rw [if_neg (fun c => c1 c.2),
                              if_neg (fun c => c2 c.2),
                              if_neg (fun c => c2 (by omega)),
                              if_neg (fun c => c4 c.2),
                              if_neg (fun c => c5 c.2),
                              if_neg (fun c => c6 c.2),
                              if_neg (fun c => c7 c.2),
                              if_neg (fun c => c8 c.2),
                              if_neg (fun c => c9 c.2),
                              if_neg (fun c => c10 c.2),
                              if_neg (fun c => c11 c.2),
                              if_neg (fun c => c12 c.2),
                              if_pos (by rcases hst with h | h <;> omega)]
                          · rcases hst with h | h <;> omega
                          · rcases hst with h | h <;> omega
  · by_cases hin : 2 ≤ s.solver.info ∧ s.solver.info ≤ 5
    · refine Or.inr (Or.inr (Or.inr (Or.inr (Or.inr (Or.inr (Or.inr (Or.inr
        (Or.inr (Or.inr (Or.inr (Or.inl
          ⟨?_, hin.1, hin.2, Or.inl hst⟩)))))))))))
      unfold hybrdRetry
      rw [if_neg (fun c => hst c.1), if_neg (fun c => hst c.1),
        if_neg (fun c => hst c.1), if_neg (fun c => hst c.1),
        if_neg (fun c => hst c.1), if_neg (fun c => hst c.1),
        if_neg (fun c => hst c.1), if_neg (fun c => hst c.1),
        if_neg (fun c => hst c.1), if_neg (fun c => hst c.1),
        if_neg (fun c => hst c.1), if_neg (fun c => hst c.1), if_pos hin]
    · refine Or.inr (Or.inr (Or.inr (Or.inr (Or.inr (Or.inr (Or.inr (Or.inr
        (Or.inr (Or.inr (Or.inr (Or.inr ⟨?_, hst, hin⟩)))))))))))
      unfold hybrdRetry
      rw [if_neg (fun c => hst c.1), if_neg (fun c => hst c.1),
        if_neg (fun c => hst c.1), if_neg (fun c => hst c.1),
        if_neg (fun c => hst c.1), if_neg (fun c => hst c.1),
        if_neg (fun c => hst c.1), if_neg (fun c => hst c.1),
        if_neg (fun c => hst c.1), if_neg (fun c => hst c.1),
        if_neg (fun c => hst c.1), if_neg (fun c => hst c.1), if_neg hin]

/-- The retry automaton never sets the success flag. -/
lemma hybrdRetry_success (P : Params n) (F : ℝ) (s : HState n) :
    (hybrdRetry P F s).success = s.success := by
  rcases hybrdRetry_cases P F s with ⟨heq, -⟩ | ⟨heq, -⟩ | ⟨heq, -⟩ | ⟨heq, -⟩ |
    ⟨heq, -⟩ | ⟨heq, -⟩ | ⟨heq, -⟩ | ⟨heq, -⟩ | ⟨heq, -⟩ | ⟨heq, -⟩ | ⟨heq, -⟩ |
    ⟨heq, -⟩ | ⟨heq, -⟩ <;> rw [heq] <;> rfl

/-- If the last invocation neither stalled nor produced any code in `[2,5]`,
the retry automaton leaves the state unchanged. -/
lemma hybrdRetry_no_stall (P : Params n) (F : ℝ) (s : HState n)
    (h : ¬ stalled s) (hni : ¬(2 ≤ s.solver.info ∧ s.solver.info ≤ 5)) :
    hybrdRetry P F s = s := by
  unfold hybrdRetry
  rw [if_neg (fun c => h c.1), if_neg (fun c => h c.1), if_neg (fun c => h c.1),
    if_neg (fun c => h c.1), if_neg (fun c => h c.1), if_neg (fun c => h c.1),
    if_neg (fun c => h c.1), if_neg (fun c => h c.1), if_neg (fun c => h c.1),
    if_neg (fun c => h c.1), if_neg (fun c => h c.1), if_neg (fun c => h c.1),
    if_neg hni]

/-- With all counters exhausted and a stalled code, the automaton only
records the no-solution sentinel and leaves `giveUp` set. -/
lemma hybrdRetry_exhaust (P : Params n) (F : ℝ) (s : HState n)
    (hinv : hInv s) (hst : stalled s) (hμ : hMeasure s = 0) :
    hybrdRetry P F s = { s with found_solution := -1 } := by
  obtain ⟨h1, h2, h3⟩ := hinv
  simp only [hMeasure] at hμ
  have hr : s.retries = 5 := by omega
  have hr2 : s.retries2 = 3 := by omega
  have hr3 : s.retries3 = 7 := by omega
  have hinfo : 2 ≤ s.solver.info ∧ s.solver.info ≤ 5 := by
    rcases hst with h | h <;> omega
  unfold hybrdRetry
  rw [if_neg (by rintro ⟨-, h⟩; omega), if_neg (by rintro ⟨-, h⟩; omega),
    if_neg (by rintro ⟨-, h⟩; omega), if_neg (by rintro ⟨-, h⟩; omega),
    if_neg (by rintro ⟨-, h⟩; omega), if_neg (by rintro ⟨-, h⟩; omega),
    if_neg (by rintro ⟨-, h⟩; omega), if_neg (by rintro ⟨-, h⟩; omega),
    if_neg (by rintro ⟨-, h⟩; omega), if_neg (by rintro ⟨-, h⟩; omega),
    if_neg (by rintro ⟨-, h⟩; omega), if_neg (by rintro ⟨-, h⟩; omega),
    if_pos hinfo]

/-- With a stalled code and a nonzero measure, some retry branch fires. -/
lemma hybrdRetry_fires_of_stalled (P : Params n) (F : ℝ) (s : HState n)
    (hinv : hInv s) (hst : stalled s) (hμ : 0 < hMeasure s) :
    (hybrdRetry P F s).giveUp = false := by
  obtain ⟨h1, h2, h3⟩ := hinv
  simp only [hMeasure] at hμ
  rcases hybrdRetry_cases P F s with ⟨heq, -⟩ | ⟨heq, -⟩ | ⟨heq, -⟩ |
    ⟨heq, -⟩ | ⟨heq, -⟩ | ⟨heq, -⟩ | ⟨heq, -⟩ | ⟨heq, -⟩ | ⟨heq, -⟩ |
    ⟨heq, -⟩ | ⟨heq, -⟩ | ⟨heq, -, -, hc⟩ | ⟨heq, hns, -⟩
  · rw [heq]; rfl
  · rw [heq]; rfl
  · rw [heq]; rfl
  · rw [heq]; rfl
  · rw [heq]; rfl
  · rw [heq]; rfl
  · rw [heq]; rfl
  · rw [heq]; rfl
  · rw [heq]; rfl
  · rw [heq]; rfl
  · rw [heq]; rfl
  · exfalso
    rcases hc with hc | hc
    · exact hc hst
    · omega
  · exact absurd hst hns

/-- Accounting for one retry step: the counter bounds are preserved, a
branch that re-arms the loop decreases the measure by exactly one and
increments the attempt counter by exactly one, and the sum
`attempts + measure` never increases. -/
lemma hybrdRetry_fire (P : Params n) (F : ℝ) (s : HState n)
    (hinv : hInv s) (hg : s.giveUp = true) :
    hInv (hybrdRetry P F s) ∧
    ((hybrdRetry P F s).giveUp = false →
      hMeasure (hybrdRetry P F s) + 1 = hMeasure s ∧
      (hybrdRetry P F s).attempts = s.attempts + 1) ∧
    (hybrdRetry P F s).attempts + hMeasure (hybrdRetry P F s) ≤
      s.attempts + hMeasure s := by
  obtain ⟨h1, h2, h3⟩ := hinv
  rcases hybrdRetry_cases P F s with ⟨heq, -, hb1⟩ | ⟨heq, -, hb1, hb2⟩ |
    ⟨heq, -, hb1, hb2⟩ | ⟨heq, -, hb1, hb2, hb3⟩ | ⟨heq, -, hb1, hb2, hb3⟩ |
    ⟨heq, -, hb1, hb2, hb3⟩ | ⟨heq, -, hb1, hb2, hb3, hb4⟩ |
    ⟨heq, -, hb1, hb2, hb3, hb4⟩ | ⟨heq, -, hb1, hb2, hb3, hb4⟩ |
    ⟨heq, -, hb1, hb2, hb3, hb4⟩ | ⟨heq, -, hb1, hb2, hb3, hb4⟩ |
    ⟨heq, -, -, -⟩ | ⟨heq, -, -⟩
  · rw [heq]
    refine ⟨?_, fun _ => ⟨?_, ?_⟩, ?_⟩ <;>
      simp only [tier1DecreaseFactor, hInv, hMeasure] <;> omega
  · rw [heq]
    refine ⟨?_, fun _ => ⟨?_, ?_⟩, ?_⟩ <;>
      simp only [tier1Perturb, hInv, hMeasure] <;> omega
  · rw [heq]
    refine ⟨?_, fun _ => ⟨?_, ?_⟩, ?_⟩ <;>
      simp only [tier2ExtrapPlus, hInv, hMeasure] <;> omega
  · rw [heq]
    refine ⟨?_, fun _ => ⟨?_, ?_⟩, ?_⟩ <;>
      simp only [tier2ExtrapMinus, hInv, hMeasure] <;> omega
  · rw [heq]
    refine ⟨?_, fun _ => ⟨?_, ?_⟩, ?_⟩ <;>
      simp only [tier2OldValues, hInv, hMeasure] <;> omega
  · rw [heq]
    refine ⟨?_, fun _ => ⟨?_, ?_⟩, ?_⟩ <;>
      simp only [tier3OwnScaling, hInv, hMeasure] <;> omega
  · rw [heq]
    refine ⟨?_, fun _ => ⟨?_, ?_⟩, ?_⟩ <;>
      simp only [tier3SeedScaling, hInv, hMeasure] <;> omega
  · rw [heq]
    refine ⟨?_, fun _ => ⟨?_, ?_⟩, ?_⟩ <;>
      simp only [tier3SeedOne, hInv, hMeasure] <;> omega
  · rw [heq]
    refine ⟨?_, fun _ => ⟨?_, ?_⟩, ?_⟩ <;>
      simp only [tier3SeedZero, hInv, hMeasure] <;> omega
  · rw [heq]
    refine ⟨?_, fun _ => ⟨?_, ?_⟩, ?_⟩ <;>
      simp only [tier3ExtrapUnitDiag, hInv, hMeasure] <;> omega
  · rw [heq]
    refine ⟨?_, fun _ => ⟨?_, ?_⟩, ?_⟩ <;>
      simp only [tier3RelaxTol, hInv, hMeasure] <;> omega
  · rw [heq]
    refine ⟨?_, fun hgu => ?_, ?_⟩
    · simp only [hInv]
      omega
    · simp [hg] at hgu
    · simp only [hMeasure]
      omega
  · rw [heq]
    exact ⟨⟨h1, h2, h3⟩, fun hgu => by simp [hg] at hgu, le_refl _⟩

/-- The tolerance-floor invariant `local_tol ≤ 1e-12 * 10 ^ retries3` is
preserved by every retry step. -/
lemma hybrdRetry_tol (P : Params n) (F : ℝ) (s : HState n)
    (htol : s.local_tol ≤ 1e-12 * 10 ^ s.retries3) :
    (hybrdRetry P F s).local_tol ≤
      1e-12 * 10 ^ (hybrdRetry P F s).retries3 := by
  have hstep : ∀ k : ℕ, (1e-12 : ℝ) * 10 ^ k ≤ 1e-12 * 10 ^ (k + 1) := by
    intro k
    have h10 : (10 : ℝ) ^ k ≤ 10 ^ (k + 1) := by
      apply pow_le_pow_right₀ <;> norm_num
    nlinarith [h10]
  rcases hybrdRetry_cases P F s with ⟨heq, -⟩ | ⟨heq, -⟩ | ⟨heq, -⟩ |
    ⟨heq, -⟩ | ⟨heq, -⟩ | ⟨heq, -⟩ | ⟨heq, -⟩ | ⟨heq, -⟩ | ⟨heq, -⟩ |
    ⟨heq, -⟩ | ⟨heq, -⟩ | ⟨heq, -⟩ | ⟨heq, -⟩
  · rw [heq]; exact htol
  · rw [heq]; exact htol
  · rw [heq]; exact htol
  · rw [heq]; exact htol
  · rw [heq]; exact htol
  · rw [heq]; exact htol.trans (hstep _)
  · rw [heq]; exact htol.trans (hstep _)
  · rw [heq]; exact htol.trans (hstep _)
  · rw [heq]; exact htol.trans (hstep _)
  · rw [heq]; exact htol.trans (hstep _)
  · rw [heq]
    show s.local_tol * 10 ≤ 1e-12 * 10 ^ (s.retries3 + 1)
    calc s.local_tol * 10 ≤ (1e-12 * 10 ^ s.retries3) * 10 :=
          mul_le_mul_of_nonneg_right htol (by norm_num)
      _ = 1e-12 * 10 ^ (s.retries3 + 1) := by ring
  · rw [heq]; exact htol
  · rw [heq]; exact htol

/-- Accounting for one full pass of the outer loop: the counter bounds are
preserved, a pass that re-arms the loop decreases the measure by exactly one
and counts exactly one recovery attempt, and `attempts + measure` never
increases. -/
lemma hybrdPass_main (P : Params n) (F : ℝ) (s : HState n) (hinv : hInv s) :
    hInv (hybrdPass P F s) ∧
    ((hybrdPass P F s).giveUp = false →
      hMeasure (hybrdPass P F s) + 1 = hMeasure s ∧
      (hybrdPass P F s).attempts = s.attempts + 1) ∧
    (hybrdPass P F s).attempts + hMeasure (hybrdPass P F s) ≤
      s.attempts + hMeasure s := by
  obtain ⟨e1, e2, e3, e4, e5, e6, e7, e8, e9⟩ := hybrdMid_fields P s
  have hinvT : hInv (hybrdMid P s) := by
    unfold hInv
    rw [e1, e2, e3]
    exact hinv
  have hmT : hMeasure (hybrdMid P s) = hMeasure s := by
    unfold hMeasure
    rw [e1, e2, e3]
  unfold hybrdPass hybrdClassify
  split_ifs with hc
  · refine ⟨hinvT, fun hgu => ?_, ?_⟩
    · exfalso
      have hgu2 : (hybrdMid P s).giveUp = false := hgu
      rw [e7] at hgu2
      exact Bool.noConfusion hgu2
    · have hsum : (hybrdMid P s).attempts + hMeasure (hybrdMid P s) ≤
          s.attempts + hMeasure s := by
        rw [e4, hmT]
      exact hsum
  · obtain ⟨rA, rB, rC⟩ := hybrdRetry_fire P F (hybrdMid P s) hinvT e7
    refine ⟨rA, fun hgu => ?_, ?_⟩
    · obtain ⟨hμ, ha⟩ := rB hgu
      rw [hmT] at hμ
      rw [e4] at ha
      exact ⟨hμ, ha⟩
    · have := rC
      rw [e4, hmT] at this
      omega

/-- A pass that establishes `success` does so exactly when the reclassified
termination code is 1 or one of the residual norms is within the tolerance
floor (all read off the resulting state). -/
lemma hybrdPass_csucc (P : Params n) (F : ℝ) (s : HState n)
    (hsu : s.success = false) :
    (hybrdPass P F s).success = true →
      ((hybrdPass P F s).solver.info = 1 ∨
        (hybrdPass P F s).xerror ≤ (hybrdPass P F s).local_tol ∨
        (hybrdPass P F s).xerror_scaled ≤ (hybrdPass P F s).local_tol) := by
  obtain ⟨e1, e2, e3, e4, e5, e6, e7, e8, e9⟩ := hybrdMid_fields P s
  unfold hybrdPass hybrdClassify
  split_ifs with hc
  · intro _
    exact hc
  · intro hgu
    exfalso
    rw [hybrdRetry_success, e6, hsu] at hgu
    exact Bool.noConfusion hgu

/-- A halted state is a fixed point of the loop, for any fuel. -/
lemma hybrdLoop_of_halted (P : Params n) (F : ℝ) (f : ℕ) (s : HState n)
    (h : s.giveUp = true ∨ s.success = true) : hybrdLoop P F f s = s := by
  cases f with
  | zero => rfl
  | succ f =>
    have hcond : ¬(s.giveUp = false ∧ s.success = false) := by
      rintro ⟨hg, hs⟩
      rcases h with h | h
      · rw [h] at hg; exact Bool.noConfusion hg
      · rw [h] at hs; exact Bool.noConfusion hs
    unfold hybrdLoop
    rw [if_neg hcond]

/-- Termination of the outer loop: with fuel exceeding the measure, the loop
reaches a halted state, the counter bounds still hold, and the total number
of recovery attempts is bounded by the initial `attempts + measure`. -/
lemma hybrdLoop_halts (P : Params n) (F : ℝ) :
    ∀ (f : ℕ) (s : HState n), hMeasure s < f → hInv s →
      ((hybrdLoop P F f s).giveUp = true ∨
        (hybrdLoop P F f s).success = true) ∧
      hInv (hybrdLoop P F f s) ∧
      (hybrdLoop P F f s).attempts + hMeasure (hybrdLoop P F f s) ≤
        s.attempts + hMeasure s := by
  intro f
  induction f with
  | zero => intro s hlt _; exact absurd hlt (Nat.not_lt_zero _)
  | succ f ih =>
    intro s hlt hinv
    by_cases hh : s.giveUp = true ∨ s.success = true
    · rw [hybrdLoop_of_halted P F _ s hh]
      exact ⟨hh, hinv, le_refl _⟩
    · push_neg at hh
      obtain ⟨hg, hs⟩ := hh
      have hg2 : s.giveUp = false := by
        cases hgv : s.giveUp
        · rfl
        · exact absurd hgv hg
      have hs2 : s.success = false := by
        cases hsv : s.success
        · rfl
        · exact absurd hsv hs
      unfold hybrdLoop
      rw [if_pos ⟨hg2, hs2⟩]
      obtain ⟨pInv, pDec, pSum⟩ := hybrdPass_main P F s hinv
      by_cases hgp : (hybrdPass P F s).giveUp = false
      · obtain ⟨hμ, ha⟩ := pDec hgp
        obtain ⟨lh, lInv, lSum⟩ := ih (hybrdPass P F s) (by omega) pInv
        exact ⟨lh, lInv, by omega⟩
      · have hgp2 : (hybrdPass P F s).giveUp = true := by
          cases hv : (hybrdPass P F s).giveUp
          · exact absurd hv hgp
          · rfl
        rw [hybrdLoop_of_halted P F f _ (Or.inl hgp2)]
        exact ⟨Or.inl hgp2, pInv, by omega⟩

/-- One-step unfolding of the loop. -/
lemma hybrdLoop_succ (P : Params n) (F : ℝ) (f : ℕ) (s : HState n) :
    hybrdLoop P F (f + 1) s =
      if s.giveUp = false ∧ s.success = false then
        hybrdLoop P F f (hybrdPass P F s)
      else s := rfl

/-- Splitting the fuel of the loop. -/
lemma hybrdLoop_add (P : Params n) (F : ℝ) :
    ∀ (a b : ℕ) (s : HState n),
      hybrdLoop P F (a + b) s = hybrdLoop P F b (hybrdLoop P F a s) := by
  intro a
  induction a with
  | zero =>
    intro b s
    rw [Nat.zero_add]
    rfl
  | succ a ih =>
    intro b s
    have hrw : a + 1 + b = (a + b) + 1 := by omega
    rw [hrw, hybrdLoop_succ, hybrdLoop_succ]
    by_cases hc : s.giveUp = false ∧ s.success = false
    · rw [if_pos hc, if_pos hc]
      exact ih b (hybrdPass P F s)
    · have hh : s.giveUp = true ∨ s.success = true := by
        rcases Bool.eq_false_or_eq_true s.giveUp with hgv | hgv
        · exact Or.inl hgv
        · rcases Bool.eq_false_or_eq_true s.success with hsv | hsv
          · exact Or.inr hsv
          · exact absurd ⟨hgv, hsv⟩ hc
      rw [if_neg hc, if_neg hc]
      exact (hybrdLoop_of_halted P F b s hh).symm

/-- The convergence condition is an invariant of success through the loop:
whenever the loop result reports success, the final state's reclassified
termination code is 1 or one of its residual norms is within its tolerance
floor. -/
lemma hybrdLoop_success_cond (P : Params n) (F : ℝ) :
    ∀ (f : ℕ) (s : HState n),
      (s.success = true →
        (s.solver.info = 1 ∨ s.xerror ≤ s.local_tol ∨
          s.xerror_scaled ≤ s.local_tol)) →
      ((hybrdLoop P F f s).success = true →
        ((hybrdLoop P F f s).solver.info = 1 ∨
          (hybrdLoop P F f s).xerror ≤ (hybrdLoop P F f s).local_tol ∨
          (hybrdLoop P F f s).xerror_scaled ≤
            (hybrdLoop P F f s).local_tol)) := by
  intro f
  induction f with
  | zero => intro s h; exact h
  | succ f ih =>
    intro s h
    unfold hybrdLoop
    split_ifs with hc
    · exact ih (hybrdPass P F s) (hybrdPass_csucc P F s hc.2)
    · exact h

end LoopLemmas

section StallLemmas

/-- On one-dimensional vectors the Euclidean norm is the absolute value. -/
lemma enorm_fin_one (v : Fin 1 → ℝ) : enorm v = |v 0| := by
  unfold enorm
  rw [Fin.sum_univ_one]
  exact Real.sqrt_sq_eq_abs _

/-- The residual scaling divisor for the constant-1 Jacobian estimate. -/
lemma resRowMax_stall : resRowMax (stallOut.fjacobian) 0 = 1 := by
  unfold resRowMax
  rw [show List.finRange 1 = [0] from rfl]
  simp only [List.foldl_cons, List.foldl_nil]
  norm_num [stallOut]

/-- Under the always-stalling oracle, every pass computes termination code 4
and both residual norms equal to 1. -/
lemma stall_mid (s : HState 1) :
    (hybrdMid stallP s).solver.info = 4 ∧
    (hybrdMid stallP s).xerror = 1 ∧
    (hybrdMid stallP s).xerror_scaled = 1 := by
  refine ⟨?_, ?_, ?_⟩
  · show (postOracle stallP (callOracle stallP (preOracle stallP s))).solver.info = 4
    rw [postOracle_info_cases]
    rw [if_neg]
    · rfl
    · rintro ⟨h1, -⟩
      have h2 : (4 : ℤ) = 1 := h1
      norm_num at h2
  · show enorm (![1] : Fin 1 → ℝ) = 1
    rw [enorm_fin_one]
    norm_num
  · show enorm (computeResScaling (stallOut.fjacobian) stallOut.fvec) = 1
    rw [enorm_fin_one]
    unfold computeResScaling
    rw [resRowMax_stall]
    norm_num [stallOut]

/-- The tolerance-floor invariant keeps `local_tol` below 1. -/
lemma stall_tol_lt_one {n : ℕ} (s : HState n) (h3 : s.retries3 ≤ 7)
    (htol : s.local_tol ≤ 1e-12 * 10 ^ s.retries3) : s.local_tol < 1 := by
  have h10 : (10 : ℝ) ^ s.retries3 ≤ 10 ^ (7 : ℕ) :=
    pow_le_pow_right₀ (by norm_num) h3
  have hle : s.local_tol ≤ 1e-12 * 10 ^ (7 : ℕ) := by nlinarith
  have hlt : (1e-12 : ℝ) * 10 ^ (7 : ℕ) < 1 := by norm_num
  linarith

/-- Under the always-stalling oracle, a non-converged pass never takes the
success branch: it always enters the retry automaton. -/
lemma stall_pass (F : ℝ) (s : HState 1) (hinv : hInv s)
    (_hsu : s.success = false)
    (htol : s.local_tol ≤ 1e-12 * 10 ^ s.retries3) :
    hybrdPass stallP F s = hybrdRetry stallP F (hybrdMid stallP s) := by
  obtain ⟨hi4, hxe, hxes⟩ := stall_mid s
  have htol1 : (hybrdMid stallP s).local_tol < 1 := by
    rw [(hybrdMid_fields stallP s).2.2.2.2.1]
    exact stall_tol_lt_one s hinv.2.2 htol
  have hcond : ¬((hybrdMid stallP s).solver.info = 1 ∨
      (hybrdMid stallP s).xerror ≤ (hybrdMid stallP s).local_tol ∨
      (hybrdMid stallP s).xerror_scaled ≤ (hybrdMid stallP s).local_tol) := by
    rintro (h | h | h)
    · rw [hi4] at h
      norm_num at h
    · rw [hxe] at h
      linarith
    · rw [hxes] at h
      linarith
  unfold hybrdPass hybrdClassify
  rw [if_neg hcond]

/-- Exact attempt accounting for the always-stalling oracle: starting from a
live loop state, the loop performs exactly `hMeasure s` further recovery
attempts and ends without success. -/
lemma stall_loop (F : ℝ) :
    ∀ (f : ℕ) (s : HState 1), hMeasure s < f → hInv s → s.success = false →
      s.giveUp = false → s.local_tol ≤ 1e-12 * 10 ^ s.retries3 →
      (hybrdLoop stallP F f s).attempts = s.attempts + hMeasure s ∧
      (hybrdLoop stallP F f s).success = false := by
  intro f
  induction f with
  | zero => intro s hlt _ _ _ _; exact absurd hlt (Nat.not_lt_zero _)
  | succ f ih =>
    intro s hlt hinv hsu hgu htol
    rw [hybrdLoop_succ, if_pos ⟨hgu, hsu⟩]
    obtain ⟨e1, e2, e3, e4, e5, e6, e7, e8, e9⟩ := hybrdMid_fields stallP s
    have hinvT : hInv (hybrdMid stallP s) := by
      unfold hInv
      rw [e1, e2, e3]
      exact hinv
    have hmT : hMeasure (hybrdMid stallP s) = hMeasure s := by
      unfold hMeasure
      rw [e1, e2, e3]
    have hps := stall_pass F s hinv hsu htol
    obtain ⟨hi4, -, -⟩ := stall_mid s
    have hstT : stalled (hybrdMid stallP s) := Or.inl hi4
    by_cases hμ : hMeasure s = 0
    · have hex := hybrdRetry_exhaust stallP F (hybrdMid stallP s) hinvT hstT
        (by rw [hmT]; exact hμ)
      rw [hps, hex]
      have hh : ({ hybrdMid stallP s with found_solution := -1 } :
          HState 1).giveUp = true := e7
      rw [hybrdLoop_of_halted stallP F f _ (Or.inl hh)]
      constructor
      · have hA : ({ hybrdMid stallP s with found_solution := -1 } :
            HState 1).attempts = s.attempts := e4
        rw [hμ]
        omega
      · have hS : ({ hybrdMid stallP s with found_solution := -1 } :
            HState 1).success = s.success := e6
        rw [hS]
        exact hsu
    · have hfi := hybrdRetry_fires_of_stalled stallP F (hybrdMid stallP s)
        hinvT hstT (by rw [hmT]; omega)
      obtain ⟨rInv, rDec, -⟩ := hybrdRetry_fire stallP F (hybrdMid stallP s)
        hinvT e7
      obtain ⟨hμd, ha⟩ := rDec hfi
      rw [hmT] at hμd
      rw [e4] at ha
      have rSu : (hybrdRetry stallP F (hybrdMid stallP s)).success = false := by
        rw [hybrdRetry_success, e6]
        exact hsu
      have rTol : (hybrdRetry stallP F (hybrdMid stallP s)).local_tol ≤
          1e-12 * 10 ^ (hybrdRetry stallP F (hybrdMid stallP s)).retries3 := by
        apply hybrdRetry_tol
        rw [e5, e3]
        exact htol
      rw [hps]
      obtain ⟨ihA, ihS⟩ := ih (hybrdRetry stallP F (hybrdMid stallP s))
        (by omega) rInv rSu hfi rTol
      refine ⟨?_, ihS⟩
      rw [ihA]
      omega

end StallLemmas

section ClaimTheoremsLoop

/-- Claim C8 (amended): the outer loop of `solveHybrd` terminates for every
oracle and every input — fuel 192 reaches a halted state and more fuel
changes nothing — and the recovery automaton performs at most 191 recovery
attempts before giving up (not 14: the restart tiers reset the inner retry
counters, so the tier budgets multiply rather than add). -/
theorem solveHybrd_terminates_bound :
    ∀ {n : ℕ} (P : Params n) (solver : SolverData n),
      ((solveHybrd P solver).2.giveUp = true ∨
        (solveHybrd P solver).2.success = true) ∧
      (solveHybrd P solver).2.attempts ≤ 191 ∧
      (∀ g : ℕ, 192 ≤ g →
        hybrdLoop P solver.factor g (initHState P solver) =
          hybrdLoop P solver.factor 192 (initHState P solver)) := by
  intro n P solver
  have h0 : hMeasure (initHState P solver) = 191 := rfl
  have hinv0 : hInv (initHState P solver) :=
    ⟨(by norm_num : (0 : ℕ) ≤ 5), (by norm_num : (0 : ℕ) ≤ 3),
      (by norm_num : (0 : ℕ) ≤ 7)⟩
  obtain ⟨hh, hI, hs⟩ := hybrdLoop_halts P solver.factor 192
    (initHState P solver) (by rw [h0]; norm_num) hinv0
  refine ⟨hh, ?_, ?_⟩
  · have ha0 : (initHState P solver).attempts = 0 := rfl
    rw [h0, ha0] at hs
    have hb : (hybrdLoop P solver.factor 192
        (initHState P solver)).attempts ≤ 191 := by omega
    exact hb
  · intro g hg
    have hsplit : g = 192 + (g - 192) := by omega
    rw [hsplit, hybrdLoop_add]
    exact hybrdLoop_of_halted P solver.factor (g - 192) _ hh

/-- Witness for the termination bound at the always-stalling fixture. -/
theorem solveHybrd_terminates_bound_witness :
    (192 ≤ 200) ∧
    (hybrdLoop stallP stallSolver.factor 200 (initHState stallP stallSolver) =
      hybrdLoop stallP stallSolver.factor 192
        (initHState stallP stallSolver)) ∧
    (solveHybrd stallP stallSolver).2.attempts ≤ 191 := by
  refine ⟨by norm_num, ?_, ?_⟩
  · exact (solveHybrd_terminates_bound stallP stallSolver).2.2 200 (by norm_num)
  · exact (solveHybrd_terminates_bound stallP stallSolver).2.1

/-- Counterexample to claim C8 as stated: with a residual function and
root-finder that always report stalling, `solveHybrd` performs 191 recovery
attempts — far more than the claimed bound of 14. -/
theorem solveHybrd_14_attempt_bound_cex :
    (solveHybrd stallP stallSolver).2.attempts = 191 ∧
    ¬((solveHybrd stallP stallSolver).2.attempts ≤ 14) := by
  have h0 : hMeasure (initHState stallP stallSolver) = 191 := rfl
  have hinv0 : hInv (initHState stallP stallSolver) :=
    ⟨(by norm_num : (0 : ℕ) ≤ 5), (by norm_num : (0 : ℕ) ≤ 3),
      (by norm_num : (0 : ℕ) ≤ 7)⟩
  obtain ⟨hA, -⟩ := stall_loop stallSolver.factor 192
    (initHState stallP stallSolver) (by rw [h0]; norm_num) hinv0 rfl rfl
    (by exact (by norm_num : (1e-12 : ℝ) ≤ 1e-12 * 10 ^ (0 : ℕ)))
  have ha0 : (initHState stallP stallSolver).attempts = 0 := rfl
  rw [ha0, h0] at hA
  have hA2 : (solveHybrd stallP stallSolver).2.attempts =
      (hybrdLoop stallP stallSolver.factor 192
        (initHState stallP stallSolver)).attempts := rfl
  rw [hA2, hA]
  norm_num

/-- Claim C2: a pass of `solveHybrd` ends with `success = true` exactly when,
after the reclassification step, the termination code is 1 or the raw
residual norm or the scaled residual norm is within the tolerance floor in
effect; consequently whenever `solveHybrd` returns true, that disjunction
held at the accepting pass (read off the final state). -/
theorem hybrd_convergence_test :
    ∀ {n : ℕ} (P : Params n) (F : ℝ) (s : HState n) (solver : SolverData n),
      s.success = false →
      (((hybrdPass P F s).success = true ↔
        ((hybrdMid P s).solver.info = 1 ∨
          (hybrdMid P s).xerror ≤ (hybrdMid P s).local_tol ∨
          (hybrdMid P s).xerror_scaled ≤ (hybrdMid P s).local_tol)) ∧
      ((solveHybrd P solver).1 = true →
        ((solveHybrd P solver).2.solver.info = 1 ∨
          (solveHybrd P solver).2.xerror ≤ (solveHybrd P solver).2.local_tol ∨
          (solveHybrd P solver).2.xerror_scaled ≤
            (solveHybrd P solver).2.local_tol))) := by
  intro n P F s solver hsu
  constructor
  · unfold hybrdPass hybrdClassify
    split_ifs with hc
    · exact ⟨fun _ => hc, fun _ => rfl⟩
    · constructor
      · intro h
        exfalso
        rw [hybrdRetry_success, (hybrdMid_fields P s).2.2.2.2.2.1, hsu] at h
        exact Bool.noConfusion h
      · intro h
        exact absurd h hc
  · intro hsucc
    have hbase : (initHState P solver).success = true →
        ((initHState P solver).solver.info = 1 ∨
          (initHState P solver).xerror ≤ (initHState P solver).local_tol ∨
          (initHState P solver).xerror_scaled ≤
            (initHState P solver).local_tol) := by
      intro h
      exact Bool.noConfusion h
    have hcond := hybrdLoop_success_cond P solver.factor 192
      (initHState P solver) hbase
    exact hcond hsucc

/-- Witness for the convergence test at the immediately-converging
fixture. -/
theorem hybrd_convergence_test_witness :
    (initHState okP stallSolver).success = false ∧
    ((hybrdPass okP 100 (initHState okP stallSolver)).success = true ↔
      ((hybrdMid okP (initHState okP stallSolver)).solver.info = 1 ∨
        (hybrdMid okP (initHState okP stallSolver)).xerror ≤
          (hybrdMid okP (initHState okP stallSolver)).local_tol ∨
        (hybrdMid okP (initHState okP stallSolver)).xerror_scaled ≤
          (hybrdMid okP (initHState okP stallSolver)).local_tol)) :=
  ⟨rfl, (hybrd_convergence_test okP 100 (initHState okP stallSolver)
    stallSolver rfl).1⟩

/-- Claim C6: in every pass, a root-finder termination code of 1 is replaced
by 4 exactly when both the raw and the scaled residual norms exceed the
tolerance floor; a code-1 result with at least one norm within tolerance is
left as 1. -/
theorem hybrd_reclassify :
    ∀ {n : ℕ} (P : Params n) (s : HState n),
      (callOracle P (preOracle P s)).solver.info = 1 →
      (((hybrdMid P s).solver.info = 4 ↔
        ((hybrdMid P s).xerror > (hybrdMid P s).local_tol ∧
          (hybrdMid P s).xerror_scaled > (hybrdMid P s).local_tol)) ∧
      ((hybrdMid P s).solver.info = 1 ↔
        ((hybrdMid P s).xerror ≤ (hybrdMid P s).local_tol ∨
          (hybrdMid P s).xerror_scaled ≤ (hybrdMid P s).local_tol))) := by
  intro n P s h1
  have hmid : hybrdMid P s = postOracle P (callOracle P (preOracle P s)) := rfl
  rw [hmid, postOracle_info_cases, postOracle_tol]
  by_cases hb :
      (postOracle P (callOracle P (preOracle P s))).xerror >
        (callOracle P (preOracle P s)).local_tol ∧
      (postOracle P (callOracle P (preOracle P s))).xerror_scaled >
        (callOracle P (preOracle P s)).local_tol
  · rw [if_pos ⟨h1, hb.1, hb.2⟩]
    refine ⟨⟨fun _ => hb, fun _ => rfl⟩, ?_⟩
    constructor
    · intro h4
      norm_num at h4
    · rintro (h | h)
      · exact absurd hb.1 (not_lt.mpr h)
      · exact absurd hb.2 (not_lt.mpr h)
  · rw [if_neg (fun c => hb ⟨c.2.1, c.2.2⟩), h1]
    refine ⟨⟨fun h => by norm_num at h, fun hb2 => absurd hb2 hb⟩, ?_⟩
    refine ⟨fun _ => ?_, fun _ => rfl⟩
    by_contra hno
    push_neg at hno
    exact hb ⟨hno.1, hno.2⟩

/-- Witness for the reclassification at the converging fixture: the code-1
result with zero residual stays 1. -/
theorem hybrd_reclassify_witness :
    (callOracle okP (preOracle okP (initHState okP
      stallSolver))).solver.info = 1 ∧
    ((hybrdMid okP (initHState okP stallSolver)).solver.info = 1 ↔
      ((hybrdMid okP (initHState okP stallSolver)).xerror ≤
        (hybrdMid okP (initHState okP stallSolver)).local_tol ∨
      (hybrdMid okP (initHState okP stallSolver)).xerror_scaled ≤
        (hybrdMid okP (initHState okP stallSolver)).local_tol)) :=
  ⟨rfl, (hybrd_reclassify okP (initHState okP stallSolver) rfl).2⟩

/-- Claim C10: when the root-finder reports improper input (code 0), the
caller-visible `found_solution` flag is set to the sentinel -1, no recovery
tier fires in that pass (`giveUp` stays set and the ghost attempt counter is
unchanged, so the loop exits), and the pass succeeds only if a residual norm
met the tolerance floor; the condition is surfaced as `success = false`,
never as an abort. -/
theorem hybrd_improper_input :
    ∀ {n : ℕ} (P : Params n) (F : ℝ) (s : HState n),
      s.success = false →
      (callOracle P (preOracle P s)).solver.info = 0 →
      ((hybrdPass P F s).found_solution = -1 ∧
       (hybrdPass P F s).giveUp = true ∧
       (hybrdPass P F s).attempts = s.attempts ∧
       ((hybrdPass P F s).success = true ↔
         ((hybrdMid P s).xerror ≤ s.local_tol ∨
          (hybrdMid P s).xerror_scaled ≤ s.local_tol))) := by
  intro n P F s hsu h0
  obtain ⟨e1, e2, e3, e4, e5, e6, e7, e8, e9⟩ := hybrdMid_fields P s
  have hmf : (hybrdMid P s).found_solution = -1 := by
    show (postOracle P (callOracle P (preOracle P s))).found_solution = -1
    rw [postOracle_found, if_pos h0]
  have hmi : (hybrdMid P s).solver.info = 0 := by
    show (postOracle P (callOracle P (preOracle P s))).solver.info = 0
    rw [postOracle_info_cases, if_neg]
    · exact h0
    · rintro ⟨h1, -⟩
      rw [h0] at h1
      norm_num at h1
  unfold hybrdPass hybrdClassify
  split_ifs with hc
  · refine ⟨hmf, e7, e4, ?_⟩
    refine ⟨fun _ => ?_, fun _ => rfl⟩
    rcases hc with h | h | h
    · rw [hmi] at h
      norm_num at h
    · exact Or.inl (by rw [← e5]; exact h)
    · exact Or.inr (by rw [← e5]; exact h)
  · have hnost : ¬ stalled (hybrdMid P s) := by
      rintro (h | h) <;> rw [hmi] at h <;> norm_num at h
    have hni : ¬(2 ≤ (hybrdMid P s).solver.info ∧
        (hybrdMid P s).solver.info ≤ 5) := by
      rintro ⟨h2, -⟩
      rw [hmi] at h2
      norm_num at h2
    rw [hybrdRetry_no_stall P F _ hnost hni]
    refine ⟨hmf, e7, e4, ?_⟩
    constructor
    · intro h
      rw [e6, hsu] at h
      exact Bool.noConfusion h
    · intro hOr
      exfalso
      apply hc
      rcases hOr with h | h
      · exact Or.inr (Or.inl (by rw [e5]; exact h))
      · exact Or.inr (Or.inr (by rw [e5]; exact h))

/-- Witness for the improper-input behaviour at the code-0 fixture. -/
theorem hybrd_improper_input_witness :
    (initHState improperP stallSolver).success = false ∧
    (callOracle improperP (preOracle improperP (initHState improperP
      stallSolver))).solver.info = 0 ∧
    ((hybrdPass improperP 100 (initHState improperP
        stallSolver)).found_solution = -1 ∧
      (hybrdPass improperP 100 (initHState improperP
        stallSolver)).giveUp = true) :=
  ⟨rfl, rfl,
    (hybrd_improper_input improperP 100 (initHState improperP stallSolver)
      rfl rfl).1,
    (hybrd_improper_input improperP 100 (initHState improperP stallSolver)
      rfl rfl).2.1⟩

end ClaimTheoremsLoop

section ResScalingClaim

/-- The fold of nonlinearSolverHybrd.c:369-375 is bounded by any common upper
bound of its seed and its entries. -/
lemma foldl_resmax_le {α : Type} (g : α → ℝ) (c : ℝ) :
    ∀ (l : List α) (a : ℝ), a ≤ c → (∀ x ∈ l, g x ≤ c) →
      l.foldl (fun acc z => if g z > acc then g z else acc) a ≤ c := by
  intro l
  induction l with
  | nil =>
    intro a ha _
    simpa using ha
  | cons y t ih =>
    intro a ha hall
    simp only [List.foldl_cons]
    apply ih
    · by_cases h : g y > a
      · rw [if_pos h]
        exact hall y (List.mem_cons_self y t)
      · rw [if_neg h]
        exact ha
    · intro x hx
      exact hall x (List.mem_cons_of_mem y hx)

/-- The fold never drops below its seed. -/
lemma le_foldl_resmax_start {α : Type} (g : α → ℝ) :
    ∀ (l : List α) (a : ℝ),
      a ≤ l.foldl (fun acc z => if g z > acc then g z else acc) a := by
  intro l
  induction l with
  | nil =>
    intro a
    simp
  | cons y t ih =>
    intro a
    simp only [List.foldl_cons]
    refine le_trans ?_ (ih _)
    by_cases h : g y > a
    · rw [if_pos h]
      exact le_of_lt h
    · rw [if_neg h]

/-- The fold dominates every entry of the list. -/
lemma le_foldl_resmax_mem {α : Type} (g : α → ℝ) :
    ∀ (l : List α) (a : ℝ) (x : α), x ∈ l →
      g x ≤ l.foldl (fun acc z => if g z > acc then g z else acc) a := by
  intro l
  induction l with
  | nil =>
    intro a x hx
    cases hx
  | cons y t ih =>
    intro a x hx
    rcases List.mem_cons.mp hx with h | h
    · subst h
      simp only [List.foldl_cons]
      refine le_trans ?_ (le_foldl_resmax_start g t _)
      by_cases hgy : g x > a
      · rw [if_pos hgy]
      · rw [if_neg hgy]
        exact le_of_not_lt hgy
    · simp only [List.foldl_cons]
      exact ih _ x h

/-- The strictly-greater fold of the source computes the maximum of `1e-16`
and the largest absolute value in row `i` of the Jacobian estimate. -/
lemma resRowMax_eq {n : ℕ} (fjacobian : Fin n → Fin n → ℝ) (i : Fin n) :
    resRowMax fjacobian i =
      max 1e-16 (Finset.univ.sup' ⟨i, Finset.mem_univ i⟩
        fun j => |fjacobian i j|) := by
  unfold resRowMax
  apply le_antisymm
  · apply foldl_resmax_le
    · exact le_max_left _ _
    · intro j _
      exact le_trans
        (Finset.le_sup' (fun j => |fjacobian i j|) (Finset.mem_univ j))
        (le_max_right _ _)
  · apply max_le
    · exact le_foldl_resmax_start _ _ _
    · apply Finset.sup'_le
      intro j _
      exact le_foldl_resmax_mem (fun j => |fjacobian i j|) _ _ j
        (List.mem_finRange j)

/-- Claim C7: in every pass, `resScaling[i]` is recomputed as `residual[i]`
divided by the maximum of `1e-16` and the largest absolute value in row `i`
of the Jacobian estimate, and the scaled convergence norm `xerror_scaled` is
the Euclidean norm of this vector. -/
theorem residual_scaling_formula :
    ∀ {n : ℕ} (fjacobian : Fin n → Fin n → ℝ) (fvec : Fin n → ℝ) (i : Fin n)
      (P : Params n) (s : HState n),
      computeResScaling fjacobian fvec i =
        fvec i / max 1e-16 (Finset.univ.sup' ⟨i, Finset.mem_univ i⟩
          fun j => |fjacobian i j|) ∧
      (hybrdMid P s).solver.resScaling =
        computeResScaling (hybrdMid P s).solver.fjacobian
          (hybrdMid P s).solver.fvec ∧
      (hybrdMid P s).xerror_scaled =
        enorm ((hybrdMid P s).solver.resScaling) := by
  intro n fjacobian fvec i P s
  refine ⟨?_, rfl, rfl⟩
  have h1 : computeResScaling fjacobian fvec i =
      fvec i * (1 / resRowMax fjacobian i) := rfl
  rw [h1, resRowMax_eq, mul_one_div]

end ResScalingClaim

section TierOrderClaim

/-- Claim C1 (amended): the retry tiers are selected in the code's else-if
order, in which the perturb tier (guard `retries < 5`,
nonlinearSolverHybrd.c:414) is checked before the disable-scaling tier
(guard `retries < 4`, line 427); consequently the disable-scaling tier can
never fire — the automaton never clears the scaling flag — and at any state
with a stalled code and `retries = 3` (where the spec's table would fire
T1b) the perturb tier fires instead. -/
theorem hybrd_tier_code_order :
    ∀ {n : ℕ} (P : Params n) (F : ℝ) (s : HState n),
      ((hybrdRetry P F s).solver.useXScaling = false →
        s.solver.useXScaling = false) ∧
      (stalled s → s.retries = 3 →
        ((hybrdRetry P F s).solver.x =
          (fun i => s.solver.x i + P.sys.nlsxScaling i * 0.1) ∧
        (hybrdRetry P F s).retries = s.retries + 1 ∧
        (hybrdRetry P F s).solver.useXScaling = s.solver.useXScaling)) := by
  intro n P F s
  constructor
  · intro h
    rcases hybrdRetry_cases P F s with ⟨heq, -⟩ | ⟨heq, -⟩ | ⟨heq, -⟩ |
      ⟨heq, -⟩ | ⟨heq, -⟩ | ⟨heq, -⟩ | ⟨heq, -⟩ | ⟨heq, -⟩ | ⟨heq, -⟩ |
      ⟨heq, -⟩ | ⟨heq, -⟩ | ⟨heq, -⟩ | ⟨heq, -⟩
    · rw [heq] at h
      exact h
    · rw [heq] at h
      exact h
    · rw [heq] at h
      simp [tier2ExtrapPlus] at h
    · rw [heq] at h
      simp [tier2ExtrapMinus] at h
    · rw [heq] at h
      simp [tier2OldValues] at h
    · rw [heq] at h
      simp [tier3OwnScaling] at h
    · rw [heq] at h
      simp [tier3SeedScaling] at h
    · rw [heq] at h
      simp [tier3SeedOne] at h
    · rw [heq] at h
      simp [tier3SeedZero] at h
    · rw [heq] at h
      simp [tier3ExtrapUnitDiag] at h
    · rw [heq] at h
      simp [tier3RelaxTol] at h
    · rw [heq] at h
      exact h
    · rw [heq] at h
      exact h
  · intro hst hr3
    rcases hybrdRetry_cases P F s with ⟨heq, -, hb⟩ | ⟨heq, -, -, -⟩ |
      ⟨heq, -, hb, -⟩ | ⟨heq, -, hb, -, -⟩ | ⟨heq, -, hb, -, -⟩ |
      ⟨heq, -, hb, -, -⟩ | ⟨heq, -, hb, -, -, -⟩ | ⟨heq, -, hb, -, -, -⟩ |
      ⟨heq, -, hb, -, -, -⟩ | ⟨heq, -, hb, -, -, -⟩ | ⟨heq, -, hb, -, -, -⟩ |
      ⟨heq, -, -, hc⟩ | ⟨heq, hns, -⟩
    · omega
    · rw [heq]
      exact ⟨rfl, rfl, rfl⟩
    · omega
    · omega
    · omega
    · omega
    · omega
    · omega
    · omega
    · omega
    · omega
    · rcases hc with hc | hc
      · exact absurd hst hc
      · omega
    · exact absurd hst hns

/-- Witness for the tier order at the `retries = 3` stalled fixture: the
perturb tier fires, the scaling flag is untouched. -/
theorem hybrd_tier_code_order_witness :
    (stalled c1State ∧ c1State.retries = 3) ∧
    ((hybrdRetry stallP 100 c1State).solver.x =
      (fun i => c1State.solver.x i + stallP.sys.nlsxScaling i * 0.1) ∧
    (hybrdRetry stallP 100 c1State).retries = c1State.retries + 1 ∧
    (hybrdRetry stallP 100 c1State).solver.useXScaling =
      c1State.solver.useXScaling) :=
  ⟨⟨Or.inl rfl, rfl⟩,
    (hybrd_tier_code_order stallP 100 c1State).2 (Or.inl rfl) rfl⟩

/-- Under the always-stalling oracle, a pass from a state with
`retries < 3` fires the decrease-factor tier. -/
lemma stall_pass_t1a (F : ℝ) (s : HState 1) (hinv : hInv s)
    (hsu : s.success = false) (hr : s.retries < 3)
    (htol : s.local_tol ≤ 1e-12 * 10 ^ s.retries3) :
    hybrdPass stallP F s = tier1DecreaseFactor (hybrdMid stallP s) := by
  rw [stall_pass F s hinv hsu htol]
  obtain ⟨hi4, -, -⟩ := stall_mid s
  have e1 := (hybrdMid_fields stallP s).1
  unfold hybrdRetry
  rw [if_pos ⟨Or.inl hi4, by rw [e1]; exact hr⟩]

/-- Field accounting for a decrease-factor pass under the stalling
oracle. -/
lemma stall_pass_t1a_fields (F : ℝ) (s : HState 1) (hinv : hInv s)
    (hsu : s.success = false) (hr : s.retries < 3)
    (htol : s.local_tol ≤ 1e-12 * 10 ^ s.retries3) :
    (hybrdPass stallP F s).retries = s.retries + 1 ∧
    (hybrdPass stallP F s).retries2 = s.retries2 ∧
    (hybrdPass stallP F s).retries3 = s.retries3 ∧
    (hybrdPass stallP F s).success = false ∧
    (hybrdPass stallP F s).giveUp = false ∧
    (hybrdPass stallP F s).local_tol = s.local_tol ∧
    (hybrdPass stallP F s).solver.useXScaling = s.solver.useXScaling := by
  obtain ⟨e1, e2, e3, e4, e5, e6, e7, e8, e9⟩ := hybrdMid_fields stallP s
  rw [stall_pass_t1a F s hinv hsu hr htol]
  refine ⟨?_, e2, e3, ?_, rfl, e5, e9⟩
  · show (hybrdMid stallP s).retries + 1 = s.retries + 1
    rw [e1]
  · show (hybrdMid stallP s).success = false
    rw [e6]
    exact hsu

/-- Under the always-stalling oracle, a pass from a state with
`retries = 3` fires the perturb tier (not the disable-scaling tier, whose
guard `retries < 4` also holds there). -/
lemma stall_pass_t1c_fields (F : ℝ) (s : HState 1) (hinv : hInv s)
    (hsu : s.success = false) (hr : s.retries = 3)
    (htol : s.local_tol ≤ 1e-12 * 10 ^ s.retries3) :
    (hybrdPass stallP F s).retries = 4 ∧
    (hybrdPass stallP F s).solver.useXScaling = s.solver.useXScaling ∧
    (hybrdPass stallP F s).solver.x =
      (fun i => (hybrdMid stallP s).solver.x i +
        stallSys.nlsxScaling i * 0.1) := by
  obtain ⟨e1, e2, e3, e4, e5, e6, e7, e8, e9⟩ := hybrdMid_fields stallP s
  rw [stall_pass F s hinv hsu htol]
  obtain ⟨hi4, -, -⟩ := stall_mid s
  have hneg : ¬(stalled (hybrdMid stallP s) ∧
      (hybrdMid stallP s).retries < 3) := by
    rintro ⟨-, h⟩
    rw [e1, hr] at h
    norm_num at h
  unfold hybrdRetry
  rw [if_neg hneg, if_pos ⟨Or.inl hi4, by rw [e1, hr]; norm_num⟩]
  refine ⟨?_, e9, rfl⟩
  show (hybrdMid stallP s).retries + 1 = 4
  rw [e1, hr]

/-- One-step unfolding of the loop at fuel 1. -/
lemma hybrdLoop_one {n : ℕ} (P : Params n) (F : ℝ) (s : HState n) :
    hybrdLoop P F 1 s =
      if s.giveUp = false ∧ s.success = false then hybrdPass P F s
      else s := rfl

/-- Counterexample to claim C1 as stated: after three decrease-factor
retries the automaton reaches the live state with `retries = 3`; the spec's
table says the disable-scaling tier T1b (guard `retries < 4`) fires next,
but the code's next pass performs the perturb action `x[i] +=
nlsxScaling[i] * 0.1`, leaves x-scaling enabled, and moves `retries` to 4. -/
theorem hybrd_tier_spec_order_cex :
    (hybrdLoop stallP 100 3 (initHState stallP stallSolver)).retries = 3 ∧
    (hybrdLoop stallP 100 3 (initHState stallP
      stallSolver)).solver.useXScaling = true ∧
    (hybrdPass stallP 100 (hybrdLoop stallP 100 3 (initHState stallP
      stallSolver))).retries = 4 ∧
    (hybrdPass stallP 100 (hybrdLoop stallP 100 3 (initHState stallP
      stallSolver))).solver.useXScaling = true ∧
    (hybrdPass stallP 100 (hybrdLoop stallP 100 3 (initHState stallP
      stallSolver))).solver.x =
      (fun i => (hybrdMid stallP (hybrdLoop stallP 100 3 (initHState stallP
        stallSolver))).solver.x i + stallSys.nlsxScaling i * 0.1) := by
  set s0 := initHState stallP stallSolver with hs0
  have hinv0 : hInv s0 :=
    ⟨(by norm_num : (0 : ℕ) ≤ 5), (by norm_num : (0 : ℕ) ≤ 3),
      (by norm_num : (0 : ℕ) ≤ 7)⟩
  have htol0 : s0.local_tol ≤ 1e-12 * 10 ^ s0.retries3 :=
    (by norm_num : (1e-12 : ℝ) ≤ 1e-12 * 10 ^ (0 : ℕ))
  have hr0 : s0.retries = 0 := rfl
  obtain ⟨a1r, a1r2, a1r3, a1su, a1gu, a1tol, a1ux⟩ :=
    stall_pass_t1a_fields 100 s0 hinv0 rfl (by rw [hr0]; norm_num) htol0
  set s1 := hybrdPass stallP 100 s0 with hs1
  have hinv1 : hInv s1 :=
    ⟨by rw [a1r, hr0]; norm_num, by rw [a1r2]; exact hinv0.2.1,
      by rw [a1r3]; exact hinv0.2.2⟩
  have htol1 : s1.local_tol ≤ 1e-12 * 10 ^ s1.retries3 := by
    rw [a1tol, a1r3]
    exact htol0
  obtain ⟨a2r, a2r2, a2r3, a2su, a2gu, a2tol, a2ux⟩ :=
    stall_pass_t1a_fields 100 s1 hinv1 a1su (by rw [a1r, hr0]; norm_num) htol1
  set s2 := hybrdPass stallP 100 s1 with hs2
  have hinv2 : hInv s2 :=
    ⟨by rw [a2r, a1r, hr0]; norm_num, by rw [a2r2, a1r2]; exact hinv0.2.1,
      by rw [a2r3, a1r3]; exact hinv0.2.2⟩
  have htol2 : s2.local_tol ≤ 1e-12 * 10 ^ s2.retries3 := by
    rw [a2tol, a1tol, a2r3, a1r3]
    exact htol0
  obtain ⟨a3r, a3r2, a3r3, a3su, a3gu, a3tol, a3ux⟩ :=
    stall_pass_t1a_fields 100 s2 hinv2 a2su
      (by rw [a2r, a1r, hr0]; norm_num) htol2
  set s3 := hybrdPass stallP 100 s2 with hs3
  have hinv3 : hInv s3 :=
    ⟨by rw [a3r, a2r, a1r, hr0]; norm_num,
      by rw [a3r2, a2r2, a1r2]; exact hinv0.2.1,
      by rw [a3r3, a2r3, a1r3]; exact hinv0.2.2⟩
  have htol3 : s3.local_tol ≤ 1e-12 * 10 ^ s3.retries3 := by
    rw [a3tol, a2tol, a1tol, a3r3, a2r3, a1r3]
    exact htol0
  have hr3 : s3.retries = 3 := by
    rw [a3r, a2r, a1r, hr0]
  obtain ⟨b1, b2, b3⟩ := stall_pass_t1c_fields 100 s3 hinv3 a3su hr3 htol3
  have hL : hybrdLoop stallP 100 3 s0 = s3 := by
    rw [show (3 : ℕ) = 2 + 1 from rfl, hybrdLoop_succ, if_pos ⟨rfl, rfl⟩]
    rw [show (2 : ℕ) = 1 + 1 from rfl, hybrdLoop_succ, if_pos ⟨a1gu, a1su⟩]
    rw [hybrdLoop_one, if_pos ⟨a2gu, a2su⟩]
  rw [hL]
  refine ⟨hr3, ?_, b1, ?_, b3⟩
  · rw [a3ux, a2ux, a1ux]
    rfl
  · rw [b2, a3ux, a2ux, a1ux]
    rfl

end TierOrderClaim
